import Mathlib

/-!
Verification of the dbt-score manifest loader (`src/dbt_score/models.py`).

The Python loader turns a raw dbt manifest (nested JSON dictionaries) into
typed entities (models, sources, snapshots, seeds, exposures), indexes test
records against their owning entity or column, resolves parent/child edges
and optionally filters the result by a dbt selection.

Embedding conventions:
* Python dictionaries are association lists (`List (String × α)`); insertion
  order is preserved exactly as Python `dict` preserves it.  `dictGet?`
  mirrors `d.get(k)`, `dictSet` mirrors `d[k] = v`, `dictAppend` mirrors
  `defaultdict(list)`'s `d[k].append(v)`, and `dictUpdate` mirrors an
  in-place mutation of the value stored under a key.
* Raw manifest records are given a schema (`RawNode`) covering every key the
  loader reads; keys the loader reads with `.get` default exactly as the
  Python defaults do.  Values the loader never inspects keep their manifest
  type (string maps).
* Python object references appended to `parents` / `children` by
  `_populate_relatives` are represented as `Ref`s: a (kind, unique-id) pair
  resolved against the loader's collections, since every appended object is
  the object stored in one of the five collections.
* The external selector `dbt_ls` (in `dbt_utils`, outside the loader) is an
  opaque collaborator: it is passed in as a function argument and the number
  of invocations is returned alongside the loader state.
-/

/-- Lookup in an association list: Python `d.get(k)` (first match wins;
real Python dicts never hold duplicate keys). -/
def dictGet? {α : Type} : List (String × α) → String → Option α
  | [], _ => none
  | (k, v) :: rest, key => if key = k then some v else dictGet? rest key

/-- `d[k] = v` on an association list: replaces the value in place if the key
exists, else appends a new entry (Python dict insertion semantics). -/
def dictSet {α : Type} : List (String × α) → String → α → List (String × α)
  | [], key, v => [(key, v)]
  | (k, w) :: rest, key, v =>
      if key = k then (key, v) :: rest else (k, w) :: dictSet rest key v

/-- `defaultdict(list)`'s `d[k].append(v)`. -/
def dictAppend {α : Type} : List (String × List α) → String → α → List (String × List α)
  | [], key, v => [(key, [v])]
  | (k, vs) :: rest, key, v =>
      if key = k then (k, vs ++ [v]) :: rest else (k, vs) :: dictAppend rest key v

/-- In-place mutation of the entry stored under `key` (Python object update
through a dict reference).  Touches every entry with that key; real dicts
have at most one. -/
def dictUpdate {α : Type} (l : List (String × α)) (key : String) (f : α → α) :
    List (String × α) :=
  l.map (fun p => if p.1 = key then (p.1, f p.2) else p)

/-- The backtick character (codepoint 96). -/
def backtickChar : Char := Char.ofNat 96

/-- `cs` with leading and trailing backticks removed, on character lists. -/
def stripBackticksL (cs : List Char) : List Char :=
  ((cs.dropWhile (· == backtickChar)).reverse.dropWhile
    (· == backtickChar)).reverse

/-- Python `s.strip("\x60")`: removes all leading and trailing backtick
characters (the BigQuery quoted-identifier normalization in
`HasColumnsMixin._get_columns`). -/
def stripBackticks (s : String) : String := ⟨stripBackticksL s.data⟩

/-- Python truthiness of an optional string (`None` and `""` are falsy),
as used by the walrus guards in `ManifestLoader._reindex_tests`. -/
def pyTruthyStr : Option String → Option String
  | some s => if s = "" then none else some s
  | none => none

/-! ## Raw manifest records -/

/-- A raw constraint node (`Constraint.from_raw_values` reads `type`, `name`,
`expression` and `columns`). -/
structure RawConstraint where
  type : String
  name : Option String := none
  expression : Option String := none
  columns : Option (List String) := none
deriving DecidableEq

/-- The `test_metadata` sub-dictionary of a raw test node; `name` defaults to
`"generic"` and `kwargs` to `{}` when absent. -/
structure RawTestMetadata where
  name : Option String := none
  kwargs : Option (List (String × String)) := none
deriving DecidableEq

/-- A raw column entry under a node's `columns` mapping
(`Column.from_node_values` reads these keys). -/
structure RawColumn where
  name : String := ""
  description : String := ""
  data_type : Option String := none
  meta : List (String × String) := []
  constraints : List RawConstraint := []
  tags : List String := []
deriving DecidableEq

/-- A duration in a source freshness threshold (`Duration` dataclass). -/
structure Duration where
  count : Option Int := none
  period : Option String := none
deriving DecidableEq

/-- A source freshness configuration (`SourceFreshness` dataclass). -/
structure SourceFreshness where
  warn_after : Duration := {}
  error_after : Duration := {}
  filter : Option String := none
deriving DecidableEq

/-- A raw manifest record (an entry of `nodes`, `sources` or `exposures`).
All keys the loader reads are present, with the defaults the Python `.get`
calls supply; kind-specific keys are simply unused for other kinds. -/
structure RawNode where
  unique_id : String := ""
  name : String := ""
  package_name : String := ""
  resource_type : String := ""
  relation_name : String := ""
  description : String := ""
  original_file_path : String := ""
  config : List (String × String) := []
  meta : List (String × String) := []
  columns : List (String × RawColumn) := []
  database : String := ""
  schema : String := ""
  raw_code : String := ""
  language : String := ""
  access : String := ""
  group : String := ""
  «alias» : Option String := none
  patch_path : Option String := none
  tags : List String := []
  depends_on : List (String × List String) := []
  constraints : List RawConstraint := []
  test_metadata : Option RawTestMetadata := none
  attached_node : Option String := none
  source_name : String := ""
  source_description : String := ""
  source_meta : List (String × String) := []
  identifier : String := ""
  loader : String := ""
  freshness : SourceFreshness := {}
  label : String := ""
  url : String := ""
  maturity : String := ""
  type : String := ""
  owner : List (String × String) := []
deriving DecidableEq

/-- `test.get("test_metadata", \x7b\x7d).get("kwargs", \x7b\x7d)`. -/
def testMetaKwargs (t : RawNode) : List (String × String) :=
  match t.test_metadata with
  | some md => md.kwargs.getD []
  | none => []

/-- `test.get("test_metadata", \x7b\x7d).get("name", "generic")`. -/
def testMetaName (t : RawNode) : String :=
  match t.test_metadata with
  | some md => md.name.getD "generic"
  | none => "generic"

/-- The `column_name` kwarg with Python's `.get("column_name", "")` default. -/
def testColumnNameD (t : RawNode) : String :=
  (dictGet? (testMetaKwargs t) "column_name").getD ""

/-- Python truthiness of `kwargs.get("column_name")`: true iff the kwarg is
present and non-empty (the `if not ...` filter in the `from_node` methods). -/
def truthyColumnName (t : RawNode) : Bool :=
  testColumnNameD t != ""

/-! ## Typed entities -/

/-- The five evaluable kinds. -/
inductive Kind where
  | model
  | source
  | snapshot
  | seed
  | exposure
deriving DecidableEq

/-- A Python object reference stored in a `parents` / `children` list:
the (kind, unique-id) pair of the referenced entity in the loader's
collections (every object appended by `_populate_relatives` is the object
stored there under that id). -/
abbrev Ref := Kind × String

/-- Typed `Constraint` dataclass. -/
structure Constraint where
  type : String
  name : Option String := none
  expression : Option String := none
  columns : Option (List String) := none
  raw_values : RawConstraint := {type := ""}
deriving DecidableEq

/-- `Constraint.from_raw_values`. -/
def Constraint.from_raw_values (raw_values : RawConstraint) : Constraint :=
  { type := raw_values.type
    name := raw_values.name
    expression := raw_values.expression
    columns := raw_values.columns
    raw_values := raw_values }

/-- Typed `Test` dataclass. -/
structure Test where
  name : String
  type : String
  kwargs : List (String × String) := []
  tags : List String := []
  raw_values : RawNode := {}
deriving DecidableEq

/-- `Test.from_node`. -/
def Test.from_node (test_node : RawNode) : Test :=
  { name := test_node.name
    type := testMetaName test_node
    kwargs := testMetaKwargs test_node
    tags := test_node.tags
    raw_values := test_node }

/-- Typed `Column` dataclass. -/
structure Column where
  name : String
  description : String
  data_type : Option String := none
  meta : List (String × String) := []
  constraints : List Constraint := []
  tags : List String := []
  tests : List Test := []
  raw_values : RawColumn := {}
  raw_test_values : List RawNode := []
deriving DecidableEq

/-- `Column.from_node_values`. -/
def Column.from_node_values (values : RawColumn) (test_values : List RawNode) :
    Column :=
  { name := values.name
    description := values.description
    data_type := values.data_type
    meta := values.meta
    constraints := values.constraints.map Constraint.from_raw_values
    tags := values.tags
    tests := test_values.map Test.from_node
    raw_values := values
    raw_test_values := test_values }

/-- `HasColumnsMixin._get_columns`: one `Column` per entry of the node's
`columns` mapping, attaching the tests whose backtick-stripped `column_name`
kwarg equals the column's key. -/
def getColumns (node_values : RawNode) (test_values : List RawNode) :
    List Column :=
  node_values.columns.map (fun p =>
    Column.from_node_values p.2
      (test_values.filter (fun t => stripBackticks (testColumnNameD t) == p.1)))

/-- The entity-level test list shared by `Model/Source/Snapshot/Seed
.from_node`: raw tests whose `column_name` kwarg is missing or empty. -/
def entityTests (test_values : List RawNode) : List Test :=
  (test_values.filter (fun t => !truthyColumnName t)).map Test.from_node

/-- Typed `Model` dataclass.  `parents` / `children` hold `Ref`s (see above). -/
structure Model where
  unique_id : String
  name : String
  relation_name : String := ""
  description : String := ""
  original_file_path : String := ""
  config : List (String × String) := []
  meta : List (String × String) := []
  columns : List Column := []
  package_name : String := ""
  database : String := ""
  schema : String := ""
  raw_code : String := ""
  language : String := ""
  access : String := ""
  group : String := ""
  «alias» : Option String := none
  patch_path : Option String := none
  tags : List String := []
  tests : List Test := []
  depends_on : List (String × List String) := []
  constraints : List Constraint := []
  parents : List Ref := []
  children : List Ref := []
  raw_values : RawNode := {}
  raw_test_values : List RawNode := []
deriving DecidableEq

/-- `Model.from_node`. -/
def Model.from_node (node_values : RawNode) (test_values : List RawNode) :
    Model :=
  { unique_id := node_values.unique_id
    name := node_values.name
    relation_name := node_values.relation_name
    description := node_values.description
    original_file_path := node_values.original_file_path
    config := node_values.config
    meta := node_values.meta
    columns := getColumns node_values test_values
    package_name := node_values.package_name
    database := node_values.database
    schema := node_values.schema
    raw_code := node_values.raw_code
    language := node_values.language
    access := node_values.access
    group := node_values.group
    «alias» := node_values.«alias»
    patch_path := node_values.patch_path
    tags := node_values.tags
    tests := entityTests test_values
    depends_on := node_values.depends_on
    constraints := node_values.constraints.map Constraint.from_raw_values
    parents := []
    raw_values := node_values
    raw_test_values := test_values }

/-- `Model.__hash__` returns `hash(self.unique_id)`; `hashStr` stands for the
interpreter's string hash. -/
def Model.pyHash (hashStr : String → Int) (m : Model) : Int :=
  hashStr m.unique_id

/-- Typed `Source` dataclass. -/
structure Source where
  unique_id : String
  name : String
  description : String := ""
  source_name : String := ""
  source_description : String := ""
  original_file_path : String := ""
  config : List (String × String) := []
  meta : List (String × String) := []
  source_meta : List (String × String) := []
  columns : List Column := []
  package_name : String := ""
  database : String := ""
  schema : String := ""
  identifier : String := ""
  loader : String := ""
  freshness : SourceFreshness := {}
  patch_path : Option String := none
  tags : List String := []
  tests : List Test := []
  children : List Ref := []
  raw_values : RawNode := {}
  raw_test_values : List RawNode := []
deriving DecidableEq

/-- `Source.selector_name` property: `f"{self.source_name}.{self.name}"`. -/
def Source.selector_name (s : Source) : String :=
  s.source_name ++ "." ++ s.name

/-- `Source.from_node`. -/
def Source.from_node (node_values : RawNode) (test_values : List RawNode) :
    Source :=
  { unique_id := node_values.unique_id
    name := node_values.name
    description := node_values.description
    source_name := node_values.source_name
    source_description := node_values.source_description
    original_file_path := node_values.original_file_path
    config := node_values.config
    meta := node_values.meta
    source_meta := node_values.source_meta
    columns := getColumns node_values test_values
    package_name := node_values.package_name
    database := node_values.database
    schema := node_values.schema
    identifier := node_values.identifier
    loader := node_values.loader
    freshness := node_values.freshness
    patch_path := node_values.patch_path
    tags := node_values.tags
    tests := entityTests test_values
    raw_values := node_values
    raw_test_values := test_values }

/-- `Source.__hash__` returns `hash(self.unique_id)`. -/
def Source.pyHash (hashStr : String → Int) (s : Source) : Int :=
  hashStr s.unique_id

/-- Typed `Snapshot` dataclass (note: `from_node` never sets `strategy` or
`unique_key`, so they keep their `None` defaults). -/
structure Snapshot where
  unique_id : String
  name : String
  relation_name : String := ""
  description : String := ""
  original_file_path : String := ""
  config : List (String × String) := []
  meta : List (String × String) := []
  columns : List Column := []
  package_name : String := ""
  database : String := ""
  schema : String := ""
  raw_code : String := ""
  language : String := ""
  «alias» : Option String := none
  patch_path : Option String := none
  tags : List String := []
  tests : List Test := []
  depends_on : List (String × List String) := []
  strategy : Option String := none
  unique_key : Option (List String) := none
  parents : List Ref := []
  children : List Ref := []
  raw_values : RawNode := {}
  raw_test_values : List RawNode := []
deriving DecidableEq

/-- `Snapshot.from_node`. -/
def Snapshot.from_node (node_values : RawNode) (test_values : List RawNode) :
    Snapshot :=
  { unique_id := node_values.unique_id
    name := node_values.name
    relation_name := node_values.relation_name
    description := node_values.description
    original_file_path := node_values.original_file_path
    config := node_values.config
    meta := node_values.meta
    columns := getColumns node_values test_values
    package_name := node_values.package_name
    database := node_values.database
    schema := node_values.schema
    raw_code := node_values.raw_code
    language := node_values.language
    «alias» := node_values.«alias»
    patch_path := node_values.patch_path
    tags := node_values.tags
    tests := entityTests test_values
    depends_on := node_values.depends_on
    parents := []
    raw_values := node_values
    raw_test_values := test_values }

/-- `Snapshot.__hash__` returns `hash(self.unique_id)`. -/
def Snapshot.pyHash (hashStr : String → Int) (s : Snapshot) : Int :=
  hashStr s.unique_id

/-- Typed `Exposure` dataclass (no columns, no tests, no children). -/
structure Exposure where
  unique_id : String
  name : String
  description : String := ""
  label : String := ""
  url : String := ""
  maturity : String := ""
  original_file_path : String := ""
  type : String := ""
  owner : List (String × String) := []
  config : List (String × String) := []
  meta : List (String × String) := []
  tags : List String := []
  depends_on : List (String × List String) := []
  parents : List Ref := []
  raw_values : RawNode := {}
deriving DecidableEq

/-- `Exposure.from_node`. -/
def Exposure.from_node (node_values : RawNode) : Exposure :=
  { unique_id := node_values.unique_id
    name := node_values.name
    description := node_values.description
    label := node_values.label
    url := node_values.url
    maturity := node_values.maturity
    original_file_path := node_values.original_file_path
    type := node_values.type
    owner := node_values.owner
    config := node_values.config
    meta := node_values.meta
    tags := node_values.tags
    depends_on := node_values.depends_on
    raw_values := node_values }

/-- `Exposure.__hash__` returns `hash(self.unique_id)`. -/
def Exposure.pyHash (hashStr : String → Int) (e : Exposure) : Int :=
  hashStr e.unique_id

/-- Typed `Seed` dataclass (no `depends_on`, no `parents`). -/
structure Seed where
  unique_id : String
  name : String
  relation_name : String := ""
  description : String := ""
  original_file_path : String := ""
  config : List (String × String) := []
  meta : List (String × String) := []
  columns : List Column := []
  package_name : String := ""
  database : String := ""
  schema : String := ""
  «alias» : Option String := none
  patch_path : Option String := none
  tags : List String := []
  tests : List Test := []
  children : List Ref := []
  raw_values : RawNode := {}
  raw_test_values : List RawNode := []
deriving DecidableEq

/-- `Seed.from_node`. -/
def Seed.from_node (node_values : RawNode) (test_values : List RawNode) :
    Seed :=
  { unique_id := node_values.unique_id
    name := node_values.name
    relation_name := node_values.relation_name
    description := node_values.description
    original_file_path := node_values.original_file_path
    config := node_values.config
    meta := node_values.meta
    columns := getColumns node_values test_values
    package_name := node_values.package_name
    database := node_values.database
    schema := node_values.schema
    «alias» := node_values.«alias»
    patch_path := node_values.patch_path
    tags := node_values.tags
    tests := entityTests test_values
    raw_values := node_values
    raw_test_values := test_values }

/-- `Seed.__hash__` returns `hash(self.unique_id)`. -/
def Seed.pyHash (hashStr : String → Int) (s : Seed) : Int :=
  hashStr s.unique_id

/-! ## The manifest loader -/

/-- A loaded evaluable, as stored in one of the five collections. -/
inductive Evaluable where
  | model (m : Model)
  | source (s : Source)
  | snapshot (s : Snapshot)
  | seed (s : Seed)
  | exposure (e : Exposure)
deriving DecidableEq

/-- The `parents` list of an evaluable; kinds without a `parents` attribute
(sources, seeds) yield `[]` — no reference to them is ever appended there. -/
def Evaluable.parentsRefs : Evaluable → List Ref
  | .model m => m.parents
  | .snapshot s => s.parents
  | .exposure e => e.parents
  | .source _ => []
  | .seed _ => []

/-- The `children` list of an evaluable; exposures have no `children`. -/
def Evaluable.childrenRefs : Evaluable → List Ref
  | .model m => m.children
  | .snapshot s => s.children
  | .source s => s.children
  | .seed s => s.children
  | .exposure _ => []

/-- The mutable state of `ManifestLoader` (its instance attributes). -/
structure Loader where
  project_name : String := ""
  raw_nodes : List (String × RawNode) := []
  raw_sources : List (String × RawNode) := []
  raw_exposures : List (String × RawNode) := []
  models : List (String × Model) := []
  tests : List (String × List RawNode) := []
  sources : List (String × Source) := []
  snapshots : List (String × Snapshot) := []
  exposures : List (String × Exposure) := []
  seeds : List (String × Seed) := []
deriving DecidableEq

/-- The raw manifest document: the owning project name
(`metadata.project_name`) and the three resource buckets. -/
structure RawManifest where
  project_name : String
  nodes : List (String × RawNode) := []
  sources : List (String × RawNode) := []
  exposures : List (String × RawNode) := []
deriving DecidableEq

/-- The start of `ManifestLoader.__init__`: keep only the raw records whose
`package_name` equals the owning project's name. -/
def initLoader (m : RawManifest) : Loader :=
  { project_name := m.project_name
    raw_nodes := m.nodes.filter (fun p => p.2.package_name == m.project_name)
    raw_sources := m.sources.filter (fun p => p.2.package_name == m.project_name)
    raw_exposures :=
      m.exposures.filter (fun p => p.2.package_name == m.project_name) }

/-- One step of `ManifestLoader._reindex_tests`: route a raw record into the
test index (tests with a truthy `attached_node` go there; otherwise the first
entry of `depends_on["nodes"]`, if truthy; otherwise the record is dropped). -/
def reindexStep (tests : List (String × List RawNode)) (nv : RawNode) :
    List (String × List RawNode) :=
  if nv.resource_type == "test" then
    match pyTruthyStr nv.attached_node with
    | some attached_node => dictAppend tests attached_node nv
    | none =>
      match pyTruthyStr ((dictGet? nv.depends_on "nodes").getD []).head? with
      | some node_unique_id => dictAppend tests node_unique_id nv
      | none => tests
  else tests

/-- `ManifestLoader._reindex_tests` over a raw node collection. -/
def reindexTests (tests₀ : List (String × List RawNode))
    (raw_nodes : List (String × RawNode)) : List (String × List RawNode) :=
  raw_nodes.foldl (fun tests p => reindexStep tests p.2) tests₀

/-- `self._reindex_tests()` as a pipeline stage. -/
def Loader.reindexStage (st : Loader) : Loader :=
  { st with tests := reindexTests st.tests st.raw_nodes }

/-- `ManifestLoader._load_models`. -/
def Loader.loadModels (st : Loader) : Loader :=
  { st with
    models := st.raw_nodes.foldl (fun acc p =>
      if p.2.resource_type == "model" then
        dictSet acc p.1 (Model.from_node p.2 ((dictGet? st.tests p.1).getD []))
      else acc) st.models }

/-- `ManifestLoader._load_sources`. -/
def Loader.loadSources (st : Loader) : Loader :=
  { st with
    sources := st.raw_sources.foldl (fun acc p =>
      if p.2.resource_type == "source" then
        dictSet acc p.1 (Source.from_node p.2 ((dictGet? st.tests p.1).getD []))
      else acc) st.sources }

/-- `ManifestLoader._load_snapshots`. -/
def Loader.loadSnapshots (st : Loader) : Loader :=
  { st with
    snapshots := st.raw_nodes.foldl (fun acc p =>
      if p.2.resource_type == "snapshot" then
        dictSet acc p.1
          (Snapshot.from_node p.2 ((dictGet? st.tests p.1).getD []))
      else acc) st.snapshots }

/-- `ManifestLoader._load_exposures`. -/
def Loader.loadExposures (st : Loader) : Loader :=
  { st with
    exposures := st.raw_exposures.foldl (fun acc p =>
      if p.2.resource_type == "exposure" then
        dictSet acc p.1 (Exposure.from_node p.2)
      else acc) st.exposures }

/-- `ManifestLoader._load_seeds`. -/
def Loader.loadSeeds (st : Loader) : Loader :=
  { st with
    seeds := st.raw_nodes.foldl (fun acc p =>
      if p.2.resource_type == "seed" then
        dictSet acc p.1 (Seed.from_node p.2 ((dictGet? st.tests p.1).getD []))
      else acc) st.seeds }

/-- Resolve a reference against the loader's collections (dereferencing a
stored Python object reference). -/
def Loader.lookupEval (st : Loader) (r : Ref) : Option Evaluable :=
  match r.1 with
  | .model => (dictGet? st.models r.2).map .model
  | .source => (dictGet? st.sources r.2).map .source
  | .snapshot => (dictGet? st.snapshots r.2).map .snapshot
  | .seed => (dictGet? st.seeds r.2).map .seed
  | .exposure => (dictGet? st.exposures r.2).map .exposure

/-- The `parents` list of the entity a reference denotes (empty if the
reference does not resolve). -/
def parentsOfRef (st : Loader) (r : Ref) : List Ref :=
  ((st.lookupEval r).map Evaluable.parentsRefs).getD []

/-- The `children` list of the entity a reference denotes. -/
def childrenOfRef (st : Loader) (r : Ref) : List Ref :=
  ((st.lookupEval r).map Evaluable.childrenRefs).getD []

/-- `node.parents.append(r)` where `node` is the entity `dep` refers to
(identity on kinds without a `parents` attribute — never reached for them). -/
def appendParentRef (st : Loader) (dep : Ref) (r : Ref) : Loader :=
  match dep.1 with
  | .model =>
      { st with
        models := dictUpdate st.models dep.2
          (fun m => { m with parents := m.parents ++ [r] }) }
  | .snapshot =>
      { st with
        snapshots := dictUpdate st.snapshots dep.2
          (fun s => { s with parents := s.parents ++ [r] }) }
  | .exposure =>
      { st with
        exposures := dictUpdate st.exposures dep.2
          (fun e => { e with parents := e.parents ++ [r] }) }
  | .source => st
  | .seed => st

/-- `ancestor.children.append(r)` where `ancestor` is the entity `anc` refers
to (identity for exposures — never reached for them). -/
def appendChildRef (st : Loader) (anc : Ref) (r : Ref) : Loader :=
  match anc.1 with
  | .model =>
      { st with
        models := dictUpdate st.models anc.2
          (fun m => { m with children := m.children ++ [r] }) }
  | .snapshot =>
      { st with
        snapshots := dictUpdate st.snapshots anc.2
          (fun s => { s with children := s.children ++ [r] }) }
  | .source =>
      { st with
        sources := dictUpdate st.sources anc.2
          (fun s => { s with children := s.children ++ [r] }) }
  | .seed =>
      { st with
        seeds := dictUpdate st.seeds anc.2
          (fun s => { s with children := s.children ++ [r] }) }
  | .exposure => st

/-- The paired `node.parents.append(...)` / `ancestor.children.append(...)`
of one resolved dependency (in source order: parent edge first). -/
def appendEdge (st : Loader) (dep anc : Ref) : Loader :=
  appendChildRef (appendParentRef st dep anc) anc dep

/-- One dependency lookup of `_populate_relatives`: try models, then
snapshots, then sources, then seeds; on the first hit add the edge pair,
on a miss do nothing. -/
def resolveOne (st : Loader) (dep : Ref) (parent_id : String) : Loader :=
  if (dictGet? st.models parent_id).isSome then
    appendEdge st dep (Kind.model, parent_id)
  else if (dictGet? st.snapshots parent_id).isSome then
    appendEdge st dep (Kind.snapshot, parent_id)
  else if (dictGet? st.sources parent_id).isSome then
    appendEdge st dep (Kind.source, parent_id)
  else if (dictGet? st.seeds parent_id).isSome then
    appendEdge st dep (Kind.seed, parent_id)
  else st

/-- The iteration list of `_populate_relatives`:
`list(models.values()) + list(snapshots.values()) + list(exposures.values())`,
captured together with each node's (immutable) `depends_on["nodes"]` list. -/
def Loader.relativesWorklist (st : Loader) : List (Ref × List String) :=
  st.models.map
    (fun p => ((Kind.model, p.1), (dictGet? p.2.depends_on "nodes").getD []))
  ++ st.snapshots.map
    (fun p => ((Kind.snapshot, p.1), (dictGet? p.2.depends_on "nodes").getD []))
  ++ st.exposures.map
    (fun p => ((Kind.exposure, p.1), (dictGet? p.2.depends_on "nodes").getD []))

/-- `ManifestLoader._populate_relatives`. -/
def Loader.populateRelatives (st : Loader) : Loader :=
  st.relativesWorklist.foldl
    (fun acc e => e.2.foldl (fun a parent_id => resolveOne a e.1 parent_id) acc)
    st

/-- The regex `[a-zA-Z0-9_]` character class. -/
def isWordChar (c : Char) : Bool :=
  c.isAlphanum || c == '_'

/-- `single_model_select.fullmatch(x)` for the regex `[a-zA-Z0-9_]+`:
a non-empty string of word characters. -/
def isSimpleSelector (x : String) : Bool :=
  !x.data.isEmpty && x.data.all isWordChar

/-- `ManifestLoader._filter_evaluables`; `dbtLs` is the external `dbt_ls`
collaborator and the returned number counts its invocations. -/
def filterEvaluables (st : Loader) (select : List String)
    (dbtLs : List String → List String) : Loader × Nat :=
  let fastPath := select.all isSimpleSelector
  let selected := if fastPath then select else dbtLs select
  ({ st with
      models := st.models.filter (fun p => selected.contains p.2.name)
      sources :=
        st.sources.filter (fun p => selected.contains p.2.selector_name)
      snapshots := st.snapshots.filter (fun p => selected.contains p.2.name)
      exposures := st.exposures.filter (fun p => selected.contains p.2.name)
      seeds := st.seeds.filter (fun p => selected.contains p.2.name) },
   if fastPath then 0 else 1)

/-- The loader state after the five load passes, before edge resolution. -/
def loadedLoader (m : RawManifest) : Loader :=
  Loader.loadSeeds
    (Loader.loadExposures
      (Loader.loadSnapshots
        (Loader.loadSources
          (Loader.loadModels
            (Loader.reindexStage (initLoader m))))))

/-- The loader state after every load pass and `_populate_relatives`, before
any selection filtering. -/
def preFilterLoader (m : RawManifest) : Loader :=
  Loader.populateRelatives (loadedLoader m)

/-- What `ManifestLoader.__init__` produces: the final loader state, the
number of `dbt_ls` invocations, and whether the "Nothing to evaluate!"
warning fired. -/
structure LoadResult where
  loader : Loader
  dbt_ls_calls : Nat
  warned : Bool
deriving DecidableEq

/-- `ManifestLoader.__init__` for an already-parsed manifest document.
`if select:` is Python truthiness: `None` and `[]` skip filtering. -/
def loadManifest (m : RawManifest) (select : Option (List String))
    (dbtLs : List String → List String) : LoadResult :=
  let st := preFilterLoader m
  let filtered :=
    match select with
    | none => (st, 0)
    | some sel => if sel.isEmpty then (st, 0) else filterEvaluables st sel dbtLs
  { loader := filtered.1
    dbt_ls_calls := filtered.2
    warned :=
      filtered.1.models.length + filtered.1.sources.length
        + filtered.1.snapshots.length + filtered.1.seeds.length
        + filtered.1.exposures.length == 0 }

/-! ## Concrete fixtures

A small manifest shaped like the repository's own test fixture: two models
and one source in project `p`, where `m1` depends on `m0` and on the source
`s0`. -/

/-- Raw node of model `m0` (no dependencies). -/
def rnM0 : RawNode :=
  { unique_id := "model.p.m0", name := "m0", package_name := "p"
    resource_type := "model" }

/-- Raw node of model `m1`, depending on `m0` and the source `s0`. -/
def rnM1 : RawNode :=
  { unique_id := "model.p.m1", name := "m1", package_name := "p"
    resource_type := "model"
    depends_on := [("nodes", ["model.p.m0", "source.p.src.s0"])] }

/-- Raw record of source `s0`. -/
def rnS0 : RawNode :=
  { unique_id := "source.p.src.s0", name := "s0", source_name := "src"
    package_name := "p", resource_type := "source" }

/-- The two-model, one-source manifest. -/
def chainManifest : RawManifest :=
  { project_name := "p"
    nodes := [("model.p.m0", rnM0), ("model.p.m1", rnM1)]
    sources := [("source.p.src.s0", rnS0)] }

/-- The entity id a raw record is indexed under by `_reindex_tests`: tests
with a truthy `attached_node` go there, otherwise under the first entry of
`depends_on["nodes"]` if that is truthy; any other record is not indexed. -/
def testTarget (nv : RawNode) : Option String :=
  if nv.resource_type == "test" then
    match pyTruthyStr nv.attached_node with
    | some attached_node => some attached_node
    | none => pyTruthyStr ((dictGet? nv.depends_on "nodes").getD []).head?
  else none

/-- A declared column named `a`. -/
def rcA : RawColumn := { name := "a", description := "the a column" }

/-- A raw model node declaring one column `a`. -/
def nvCols : RawNode :=
  { unique_id := "model.p.mc", name := "mc", package_name := "p"
    resource_type := "model", columns := [("a", rcA)] }

/-- A raw test with no `column_name` kwarg (attaches to the entity). -/
def tEnt : RawNode :=
  { unique_id := "test.p.tent", name := "tent", package_name := "p"
    resource_type := "test"
    test_metadata := some { name := some "unique", kwargs := some [] } }

/-- A raw test whose `column_name` (`b`) matches no declared column. -/
def tOrphan : RawNode :=
  { unique_id := "test.p.torphan", name := "torphan", package_name := "p"
    resource_type := "test"
    test_metadata := some
      { name := some "unique", kwargs := some [("column_name", "b")] } }

/-- A raw test whose `column_name` is the backtick-quoted column `a`. -/
def tBt : RawNode :=
  { unique_id := "test.p.tbt", name := "tbt", package_name := "p"
    resource_type := "test"
    test_metadata := some
      { name := some "unique", kwargs := some [("column_name", "`a`")] } }

/-- A raw test whose `column_name` is the double-quoted column `a`. -/
def tDq : RawNode :=
  { unique_id := "test.p.tdq", name := "tdq", package_name := "p"
    resource_type := "test"
    test_metadata := some
      { name := some "unique", kwargs := some [("column_name", "\"a\"")] } }

/-- A raw test with no attachment and two upstream dependencies. -/
def tTwoDeps : RawNode :=
  { unique_id := "test.p.t2", name := "t2", package_name := "p"
    resource_type := "test", attached_node := none
    depends_on := [("nodes", ["model.p.a", "model.p.b"])] }

/-- A model named `x` with id `model.p.same`. -/
def mEqA : Model := { unique_id := "model.p.same", name := "x" }

/-- A model sharing `mEqA`'s id but with a different name. -/
def mEqB : Model := { unique_id := "model.p.same", name := "y" }

/-- A model with a different id than `mEqA`. -/
def mDiff : Model := { unique_id := "model.p.other", name := "x" }

/-- A loader state where a model and a source share the id `X`, plus a
dependent model `dep` — exercising the dependency-resolution precedence. -/
def stPrec : Loader :=
  { models := [("X", { unique_id := "X", name := "x" }),
      ("dep", { unique_id := "dep", name := "dep" })]
    sources := [("X", { unique_id := "X", name := "x" })] }

/-! ## Sanity checks on the concrete fixtures -/

example : stripBackticks "``a`b``" = "a`b" := by decide
example : pyTruthyStr (some "") = none := by decide

example :
    childrenOfRef (preFilterLoader chainManifest) (Kind.model, "model.p.m0") =
      [(Kind.model, "model.p.m1")] := by decide

example :
    parentsOfRef (preFilterLoader chainManifest) (Kind.model, "model.p.m1") =
      [(Kind.model, "model.p.m0"), (Kind.source, "source.p.src.s0")] := by
  decide

example :
    childrenOfRef (preFilterLoader chainManifest)
        (Kind.source, "source.p.src.s0") =
      [(Kind.model, "model.p.m1")] := by decide

/-! ## Association-list lemmas -/

theorem dictGet?_cons {α : Type} (a : String) (b : α)
    (rest : List (String × α)) (k : String) :
    dictGet? ((a, b) :: rest) k =
      if k = a then some b else dictGet? rest k := rfl

theorem dictGet?_update {α : Type} (l : List (String × α)) (k : String)
    (f : α → α) (k' : String) :
    dictGet? (dictUpdate l k f) k' =
      if k' = k then (dictGet? l k).map f else dictGet? l k' := by
  induction l with
  | nil =>
    simp only [dictUpdate, List.map_nil, dictGet?, Option.map_none']
    split <;> rfl
  | cons p rest ih =>
    obtain ⟨a, b⟩ := p
    simp only [dictUpdate, List.map_cons] at ih ⊢
    by_cases hak : a = k
    · subst hak
      by_cases hk' : k' = a
      · simp [dictGet?_cons, hk']
      · simp [dictGet?_cons, hk', ih]
    · have hka : ¬k = a := fun h => hak h.symm
      by_cases hk' : k' = a
      · have hkk : ¬k' = k := fun h => hak (hk'.symm.trans h)
        simp [dictGet?_cons, hak, hk', hkk, hka]
      · by_cases hkk : k' = k
        · subst hkk
          simp [dictGet?_cons, hak, hk', hka, ih]
        · simp [dictGet?_cons, hak, hk', hkk, hka, ih]

theorem dictGet?_set {α : Type} (l : List (String × α)) (k : String) (v : α)
    (k' : String) :
    dictGet? (dictSet l k v) k' =
      if k' = k then some v else dictGet? l k' := by
  induction l with
  | nil => rfl
  | cons p rest ih =>
    obtain ⟨a, b⟩ := p
    by_cases hak : k = a
    · subst hak
      by_cases hk' : k' = k <;> simp [dictSet, dictGet?_cons, hk']
    · have hak' : ¬a = k := fun h => hak h.symm
      by_cases hk' : k' = a
      · have hkk : ¬k' = k := fun h => hak (h.symm.trans hk')
        simp [dictSet, dictGet?_cons, hak, hak', hk', hkk]
      · by_cases hkk : k' = k
        · subst hkk
          simp [dictSet, dictGet?_cons, hak, hak', hk', ih]
        · simp [dictSet, dictGet?_cons, hak, hak', hk', hkk, ih]

theorem dictGet?_dictAppend {α : Type} (l : List (String × List α))
    (k : String) (v : α) (k' : String) :
    dictGet? (dictAppend l k v) k' =
      if k' = k then some ((dictGet? l k).getD [] ++ [v])
      else dictGet? l k' := by
  induction l with
  | nil => rfl
  | cons p rest ih =>
    obtain ⟨a, b⟩ := p
    by_cases hak : k = a
    · subst hak
      by_cases hk' : k' = k <;> simp [dictAppend, dictGet?_cons, hk']
    · have hak' : ¬a = k := fun h => hak h.symm
      by_cases hk' : k' = a
      · have hkk : ¬k' = k := fun h => hak (h.symm.trans hk')
        simp [dictAppend, dictGet?_cons, hak, hak', hk', hkk]
      · by_cases hkk : k' = k
        · subst hkk
          simp [dictAppend, dictGet?_cons, hak, hak', hk', ih]
        · simp [dictAppend, dictGet?_cons, hak, hak', hk', hkk, ih]

theorem keys_dictUpdate {α : Type} (l : List (String × α)) (k : String)
    (f : α → α) :
    (dictUpdate l k f).map Prod.fst = l.map Prod.fst := by
  induction l with
  | nil => rfl
  | cons p rest ih =>
    simp only [dictUpdate, List.map_cons] at ih ⊢
    rw [ih]
    by_cases h : p.1 = k
    · rw [if_pos h]
    · rw [if_neg h]

theorem mem_keys_dictSet {α : Type} (l : List (String × α)) (k : String)
    (v : α) (x : String) :
    x ∈ (dictSet l k v).map Prod.fst ↔
      x ∈ l.map Prod.fst ∨ x = k := by
  induction l with
  | nil => simp [dictSet]
  | cons p rest ih =>
    obtain ⟨a, b⟩ := p
    by_cases hak : k = a
    · rw [dictSet, if_pos hak]
      subst hak
      simp
      tauto
    · rw [dictSet, if_neg hak]
      simp only [List.map_cons, List.mem_cons, ih]
      tauto

theorem nodup_keys_dictSet {α : Type} (l : List (String × α)) (k : String)
    (v : α) (h : (l.map Prod.fst).Nodup) :
    ((dictSet l k v).map Prod.fst).Nodup := by
  induction l with
  | nil => simp [dictSet]
  | cons p rest ih =>
    obtain ⟨a, b⟩ := p
    simp only [List.map_cons, List.nodup_cons] at h
    by_cases hak : k = a
    · rw [dictSet, if_pos hak]
      subst hak
      simp only [List.map_cons, List.nodup_cons]
      exact ⟨h.1, h.2⟩
    · rw [dictSet, if_neg hak]
      simp only [List.map_cons, List.nodup_cons]
      refine ⟨?_, ih h.2⟩
      intro hmem
      rcases (mem_keys_dictSet rest k v a).mp hmem with h' | h'
      · exact h.1 h'
      · exact hak h'.symm

theorem dictGet?_eq_none_of_not_mem {α : Type} (l : List (String × α))
    (k : String) (h : k ∉ l.map Prod.fst) : dictGet? l k = none := by
  induction l with
  | nil => rfl
  | cons p rest ih =>
    simp only [List.map_cons, List.mem_cons] at h
    push_neg at h
    obtain ⟨a, b⟩ := p
    rw [dictGet?_cons, if_neg h.1, ih h.2]

theorem dictGet?_isSome_iff {α : Type} (l : List (String × α)) (k : String) :
    (dictGet? l k).isSome = true ↔ k ∈ l.map Prod.fst := by
  induction l with
  | nil => simp [dictGet?]
  | cons p rest ih =>
    obtain ⟨a, b⟩ := p
    by_cases h : k = a
    · subst h
      rw [dictGet?_cons, if_pos rfl]
      simp
    · rw [dictGet?_cons, if_neg h]
      simp [ih, h]

theorem dictGet?_filter {α : Type} (l : List (String × α))
    (q : String × α → Bool) (k : String) (h : (l.map Prod.fst).Nodup) :
    dictGet? (l.filter q) k =
      (dictGet? l k).bind (fun v => if q (k, v) then some v else none) := by
  induction l with
  | nil => rfl
  | cons p rest ih =>
    obtain ⟨a, b⟩ := p
    simp only [List.map_cons, List.nodup_cons] at h
    by_cases hk : k = a
    · subst hk
      have hnone : dictGet? (rest.filter q) k = none := by
        apply dictGet?_eq_none_of_not_mem
        intro hmem
        rcases List.mem_map.mp hmem with ⟨pp, hpp, hfst⟩
        exact h.1 (hfst ▸ List.mem_map_of_mem Prod.fst
          (List.mem_of_mem_filter hpp))
      by_cases hq : q (k, b) = true <;>
        simp [List.filter_cons, hq, dictGet?_cons, hnone]
    · by_cases hq : q (a, b) = true <;>
        simp [List.filter_cons, hq, dictGet?_cons, hk, ih h.2]

/-! ## Edge-operation lemmas -/

/-- Kinds whose dataclass declares a `parents` attribute. -/
def kindHasParents : Kind → Bool
  | .model => true
  | .snapshot => true
  | .exposure => true
  | .source => false
  | .seed => false

/-- Kinds whose dataclass declares a `children` attribute. -/
def kindHasChildren : Kind → Bool
  | .model => true
  | .snapshot => true
  | .source => true
  | .seed => true
  | .exposure => false

theorem lookup_appendParentRef_isSome (st : Loader) (dep r x : Ref) :
    ((appendParentRef st dep r).lookupEval x).isSome =
      (st.lookupEval x).isSome := by
  obtain ⟨dk, di⟩ := dep
  obtain ⟨xk, xi⟩ := x
  cases dk <;> cases xk <;>
      simp only [appendParentRef, Loader.lookupEval, dictGet?_update] <;>
    split <;> simp_all

theorem lookup_appendChildRef_isSome (st : Loader) (anc r x : Ref) :
    ((appendChildRef st anc r).lookupEval x).isSome =
      (st.lookupEval x).isSome := by
  obtain ⟨ak, ai⟩ := anc
  obtain ⟨xk, xi⟩ := x
  cases ak <;> cases xk <;>
      simp only [appendChildRef, Loader.lookupEval, dictGet?_update] <;>
    split <;> simp_all

theorem parentsOfRef_appendParentRef (st : Loader) (dep r x : Ref)
    (hdep : (st.lookupEval dep).isSome = true) :
    parentsOfRef (appendParentRef st dep r) x =
      if x = dep ∧ kindHasParents dep.1 = true then parentsOfRef st x ++ [r]
      else parentsOfRef st x := by
  obtain ⟨dk, di⟩ := dep
  obtain ⟨xk, xi⟩ := x
  cases dk <;> cases xk <;>
    simp_all [appendParentRef, Loader.lookupEval, parentsOfRef,
      kindHasParents, dictGet?_update, Prod.ext_iff, Evaluable.parentsRefs] <;>
    (try split) <;>
    simp_all [Evaluable.parentsRefs] <;>
    (try obtain ⟨v, hv⟩ := Option.isSome_iff_exists.mp hdep) <;>
    simp_all [Evaluable.parentsRefs]

theorem optGetD_map_congr {α β : Type} (o : Option α) (F G : α → β) (d : β)
    (h : ∀ a, F a = G a) : (o.map F).getD d = (o.map G).getD d := by
  cases o <;> simp [h]

theorem childrenOfRef_appendParentRef (st : Loader) (dep r x : Ref) :
    childrenOfRef (appendParentRef st dep r) x = childrenOfRef st x := by
  obtain ⟨dk, di⟩ := dep
  obtain ⟨xk, xi⟩ := x
  cases dk <;> cases xk <;>
    simp_all [appendParentRef, Loader.lookupEval, childrenOfRef,
      dictGet?_update, Evaluable.childrenRefs] <;>
    (try split) <;>
    (try rfl) <;>
    · rename_i h
      subst h
      rw [Option.map_map]
      apply optGetD_map_congr
      intro s
      rfl

theorem parentsOfRef_appendChildRef (st : Loader) (anc r x : Ref) :
    parentsOfRef (appendChildRef st anc r) x = parentsOfRef st x := by
  obtain ⟨ak, ai⟩ := anc
  obtain ⟨xk, xi⟩ := x
  cases ak <;> cases xk <;>
    simp_all [appendChildRef, Loader.lookupEval, parentsOfRef,
      dictGet?_update, Evaluable.parentsRefs] <;>
    (try split) <;>
    (try rfl) <;>
    · rename_i h
      subst h
      rw [Option.map_map]
      apply optGetD_map_congr
      intro s
      rfl

/-- The five collections' key lists, used to state that edge resolution only
mutates stored entities and never adds or removes collection entries. -/
def Loader.keys (st : Loader) :
    List String × List String × List String × List String × List String :=
  (st.models.map Prod.fst, st.sources.map Prod.fst,
    st.snapshots.map Prod.fst, st.seeds.map Prod.fst,
    st.exposures.map Prod.fst)

theorem keys_appendParentRef (st : Loader) (dep r : Ref) :
    (appendParentRef st dep r).keys = st.keys := by
  obtain ⟨dk, di⟩ := dep
  cases dk <;> simp [appendParentRef, Loader.keys, keys_dictUpdate]

theorem keys_appendChildRef (st : Loader) (anc r : Ref) :
    (appendChildRef st anc r).keys = st.keys := by
  obtain ⟨ak, ai⟩ := anc
  cases ak <;> simp [appendChildRef, Loader.keys, keys_dictUpdate]

theorem childrenOfRef_appendChildRef (st : Loader) (anc r x : Ref)
    (hanc : (st.lookupEval anc).isSome = true) :
    childrenOfRef (appendChildRef st anc r) x =
      if x = anc ∧ kindHasChildren anc.1 = true then childrenOfRef st x ++ [r]
      else childrenOfRef st x := by
  obtain ⟨ak, ai⟩ := anc
  obtain ⟨xk, xi⟩ := x
  cases ak <;> cases xk <;>
    simp_all [appendChildRef, Loader.lookupEval, childrenOfRef,
      kindHasChildren, dictGet?_update, Prod.ext_iff,
      Evaluable.childrenRefs] <;>
    (try split) <;>
    simp_all [Evaluable.childrenRefs] <;>
    (try obtain ⟨v, hv⟩ := Option.isSome_iff_exists.mp hanc) <;>
    simp_all [Evaluable.childrenRefs]

/-! ### The combined effect of one resolved dependency -/

theorem lookup_appendEdge_isSome (st : Loader) (dep anc x : Ref) :
    ((appendEdge st dep anc).lookupEval x).isSome =
      (st.lookupEval x).isSome := by
  unfold appendEdge
  rw [lookup_appendChildRef_isSome, lookup_appendParentRef_isSome]

theorem keys_appendEdge (st : Loader) (dep anc : Ref) :
    (appendEdge st dep anc).keys = st.keys := by
  unfold appendEdge
  rw [keys_appendChildRef, keys_appendParentRef]

theorem parentsOfRef_appendEdge (st : Loader) (dep anc x : Ref)
    (hdep : (st.lookupEval dep).isSome = true) :
    parentsOfRef (appendEdge st dep anc) x =
      if x = dep ∧ kindHasParents dep.1 = true then parentsOfRef st x ++ [anc]
      else parentsOfRef st x := by
  unfold appendEdge
  rw [parentsOfRef_appendChildRef,
    parentsOfRef_appendParentRef st dep anc x hdep]

theorem childrenOfRef_appendEdge (st : Loader) (dep anc x : Ref)
    (hanc : (st.lookupEval anc).isSome = true) :
    childrenOfRef (appendEdge st dep anc) x =
      if x = anc ∧ kindHasChildren anc.1 = true then childrenOfRef st x ++ [dep]
      else childrenOfRef st x := by
  unfold appendEdge
  rw [childrenOfRef_appendChildRef _ _ _ _
      (by rw [lookup_appendParentRef_isSome]; exact hanc),
    childrenOfRef_appendParentRef]

/-! ### Invariants preserved by `_populate_relatives` -/

/-- Parent/child edges come in matched pairs: for any two references, the
number of child edges from `a` to `b` equals the number of parent edges from
`b` to `a`. -/
def EdgeSym (st : Loader) : Prop :=
  ∀ a b : Ref,
    List.count b (childrenOfRef st a) = List.count a (parentsOfRef st b)

/-- Every reference stored in a `parents` / `children` list resolves to an
entity present in the loader's collections. -/
def RefsOk (st : Loader) : Prop :=
  ∀ x r : Ref, (r ∈ parentsOfRef st x ∨ r ∈ childrenOfRef st x) →
    (st.lookupEval r).isSome = true

theorem count_append_single {α : Type} [DecidableEq α] (a d : α)
    (l : List α) :
    List.count a (l ++ [d]) = List.count a l + (if a = d then 1 else 0) := by
  by_cases h : a = d <;> simp [List.count_append, h]

theorem edgeSym_appendEdge (st : Loader) (dep anc : Ref)
    (hdep : (st.lookupEval dep).isSome = true)
    (hanc : (st.lookupEval anc).isSome = true)
    (hdk : kindHasParents dep.1 = true)
    (hak : kindHasChildren anc.1 = true)
    (hsym : EdgeSym st) : EdgeSym (appendEdge st dep anc) := by
  intro a b
  rw [childrenOfRef_appendEdge st dep anc a hanc,
    parentsOfRef_appendEdge st dep anc b hdep]
  by_cases hA : a = anc <;> by_cases hB : b = dep <;>
    simp [hA, hB, hdk, hak, count_append_single] <;>
    exact hsym _ _

theorem refsOk_appendEdge (st : Loader) (dep anc : Ref)
    (hdep : (st.lookupEval dep).isSome = true)
    (hanc : (st.lookupEval anc).isSome = true)
    (h : RefsOk st) : RefsOk (appendEdge st dep anc) := by
  intro x r hr
  rw [lookup_appendEdge_isSome]
  rw [parentsOfRef_appendEdge st dep anc x hdep,
    childrenOfRef_appendEdge st dep anc x hanc] at hr
  rcases hr with hr | hr
  · split at hr
    · rcases List.mem_append.mp hr with hr | hr
      · exact h x r (Or.inl hr)
      · rw [List.mem_singleton.mp hr]
        exact hanc
    · exact h x r (Or.inl hr)
  · split at hr
    · rcases List.mem_append.mp hr with hr | hr
      · exact h x r (Or.inr hr)
      · rw [List.mem_singleton.mp hr]
        exact hdep
    · exact h x r (Or.inr hr)

theorem isSome_opt_map {α β : Type} (f : α → β) (o : Option α) :
    (o.map f).isSome = o.isSome := by
  cases o <;> rfl

theorem lookup_isSome_of_keys_eq (st st' : Loader)
    (h : st'.keys = st.keys) (x : Ref) :
    ((st'.lookupEval x).isSome = true) ↔ ((st.lookupEval x).isSome = true) := by
  obtain ⟨xk, xi⟩ := x
  simp only [Loader.keys, Prod.mk.injEq] at h
  obtain ⟨h1, h2, h3, h4, h5⟩ := h
  cases xk <;>
    simp only [Loader.lookupEval, isSome_opt_map] <;>
    rw [dictGet?_isSome_iff, dictGet?_isSome_iff] <;>
    simp [h1, h2, h3, h4, h5]

/-- `resolveOne` either misses every collection and leaves the state
untouched, or adds exactly one edge pair to the first collection (in
precedence order) that contains the id. -/
theorem resolveOne_cases (st : Loader) (dep : Ref) (pid : String) :
    resolveOne st dep pid = st ∨
      ∃ anc : Ref, anc.2 = pid ∧ kindHasChildren anc.1 = true ∧
        (st.lookupEval anc).isSome = true ∧
        resolveOne st dep pid = appendEdge st dep anc := by
  unfold resolveOne
  by_cases h1 : (dictGet? st.models pid).isSome = true
  · exact Or.inr ⟨(Kind.model, pid), rfl, rfl,
      by simp [Loader.lookupEval, isSome_opt_map, h1], by simp [h1]⟩
  by_cases h2 : (dictGet? st.snapshots pid).isSome = true
  · exact Or.inr ⟨(Kind.snapshot, pid), rfl, rfl,
      by simp [Loader.lookupEval, isSome_opt_map, h2], by simp [h1, h2]⟩
  by_cases h3 : (dictGet? st.sources pid).isSome = true
  · exact Or.inr ⟨(Kind.source, pid), rfl, rfl,
      by simp [Loader.lookupEval, isSome_opt_map, h3], by simp [h1, h2, h3]⟩
  by_cases h4 : (dictGet? st.seeds pid).isSome = true
  · exact Or.inr ⟨(Kind.seed, pid), rfl, rfl,
      by simp [Loader.lookupEval, isSome_opt_map, h4],
      by simp [h1, h2, h3, h4]⟩
  · exact Or.inl (by simp [h1, h2, h3, h4])

theorem inv_resolveOne (st : Loader) (dep : Ref) (pid : String)
    (hdep : (st.lookupEval dep).isSome = true)
    (hdk : kindHasParents dep.1 = true)
    (hsym : EdgeSym st) (hok : RefsOk st) :
    EdgeSym (resolveOne st dep pid) ∧ RefsOk (resolveOne st dep pid) ∧
      (resolveOne st dep pid).keys = st.keys := by
  rcases resolveOne_cases st dep pid with h | ⟨anc, _, hck, hanc, h⟩
  · rw [h]
    exact ⟨hsym, hok, rfl⟩
  · rw [h]
    exact ⟨edgeSym_appendEdge st dep anc hdep hanc hdk hck hsym,
      refsOk_appendEdge st dep anc hdep hanc hok,
      keys_appendEdge st dep anc⟩

theorem inv_resolveFold (dep : Ref) (deps : List String)
    (hdk : kindHasParents dep.1 = true) :
    ∀ st : Loader, (st.lookupEval dep).isSome = true →
      EdgeSym st → RefsOk st →
      EdgeSym (deps.foldl (fun a pid => resolveOne a dep pid) st) ∧
        RefsOk (deps.foldl (fun a pid => resolveOne a dep pid) st) ∧
        (deps.foldl (fun a pid => resolveOne a dep pid) st).keys = st.keys := by
  induction deps with
  | nil =>
    intro st hdep hsym hok
    exact ⟨hsym, hok, rfl⟩
  | cons pid rest ih =>
    intro st hdep hsym hok
    obtain ⟨hsym', hok', hkeys'⟩ := inv_resolveOne st dep pid hdep hdk hsym hok
    have hdep' : ((resolveOne st dep pid).lookupEval dep).isSome = true :=
      (lookup_isSome_of_keys_eq st _ hkeys' dep).mpr hdep
    obtain ⟨hs, ho, hk⟩ := ih (resolveOne st dep pid) hdep' hsym' hok'
    exact ⟨hs, ho, hk.trans hkeys'⟩

theorem inv_worklistFold (st0 : Loader) (ws : List (Ref × List String)) :
    ∀ st : Loader, st.keys = st0.keys → EdgeSym st → RefsOk st →
      (∀ e ∈ ws, kindHasParents e.1.1 = true ∧
        (st0.lookupEval e.1).isSome = true) →
      EdgeSym (ws.foldl
          (fun acc e => e.2.foldl (fun a pid => resolveOne a e.1 pid) acc) st) ∧
        RefsOk (ws.foldl
          (fun acc e => e.2.foldl (fun a pid => resolveOne a e.1 pid) acc) st) ∧
        (ws.foldl
          (fun acc e => e.2.foldl (fun a pid => resolveOne a e.1 pid) acc)
            st).keys = st0.keys := by
  induction ws with
  | nil =>
    intro st hkeys hsym hok _
    exact ⟨hsym, hok, hkeys⟩
  | cons e rest ih =>
    intro st hkeys hsym hok hval
    have he := hval e (List.mem_cons_self e rest)
    have hdep : (st.lookupEval e.1).isSome = true :=
      (lookup_isSome_of_keys_eq st0 st hkeys e.1).mpr he.2
    obtain ⟨hs, ho, hk⟩ := inv_resolveFold e.1 e.2 he.1 st hdep hsym hok
    rw [List.foldl_cons]
    exact ih _ (hk.trans hkeys) hs ho
      (fun e' he' => hval e' (List.mem_cons_of_mem e he'))

/-- The worklist of `_populate_relatives` only contains dependent kinds
(models, snapshots, exposures) that are present in their collection. -/
theorem relativesWorklist_valid (st : Loader) :
    ∀ e ∈ st.relativesWorklist, kindHasParents e.1.1 = true ∧
      (st.lookupEval e.1).isSome = true := by
  intro e he
  unfold Loader.relativesWorklist at he
  rcases List.mem_append.mp he with he | he
  · rcases List.mem_append.mp he with he | he <;>
    · obtain ⟨p, hp, rfl⟩ := List.mem_map.mp he
      refine ⟨rfl, ?_⟩
      simp only [Loader.lookupEval, isSome_opt_map]
      exact (dictGet?_isSome_iff _ _).mpr (List.mem_map_of_mem Prod.fst hp)
  · obtain ⟨p, hp, rfl⟩ := List.mem_map.mp he
    refine ⟨rfl, ?_⟩
    simp only [Loader.lookupEval, isSome_opt_map]
    exact (dictGet?_isSome_iff _ _).mpr (List.mem_map_of_mem Prod.fst hp)

/-- A loader state whose entities all have empty edge lists (the state right
after the load passes, before `_populate_relatives`). -/
def EmptyEdges (st : Loader) : Prop :=
  ∀ x : Ref, parentsOfRef st x = [] ∧ childrenOfRef st x = []

theorem edgeSym_of_emptyEdges (st : Loader) (h : EmptyEdges st) :
    EdgeSym st := by
  intro a b
  rw [(h a).2, (h b).1]
  simp

theorem refsOk_of_emptyEdges (st : Loader) (h : EmptyEdges st) :
    RefsOk st := by
  intro x r hr
  rcases hr with hr | hr
  · rw [(h x).1] at hr
    cases hr
  · rw [(h x).2] at hr
    cases hr

/-- Invariant of `_populate_relatives` as a whole: starting from a state with
empty edge lists, it produces matched edge pairs, resolvable references, and
unchanged collection keys. -/
theorem inv_populateRelatives (st : Loader) (h : EmptyEdges st) :
    EdgeSym st.populateRelatives ∧ RefsOk st.populateRelatives ∧
      st.populateRelatives.keys = st.keys := by
  unfold Loader.populateRelatives
  exact inv_worklistFold st st.relativesWorklist st rfl
    (edgeSym_of_emptyEdges st h) (refsOk_of_emptyEdges st h)
    (relativesWorklist_valid st)

/-! ### Properties of the load passes -/

theorem dictGet?_foldl_guardSet {α β : Type} (Q : α → Prop)
    (raws : List (String × β)) (cond : β → Bool) (build : String → β → α) :
    ∀ acc₀ : List (String × α),
      (∀ k v, dictGet? acc₀ k = some v → Q v) →
      (∀ k b, Q (build k b)) →
      ∀ k v,
        dictGet? (raws.foldl (fun acc p =>
          if cond p.2 then dictSet acc p.1 (build p.1 p.2) else acc) acc₀) k =
            some v → Q v := by
  induction raws with
  | nil =>
    intro acc₀ h0 _ k v h
    exact h0 k v h
  | cons p rest ih =>
    intro acc₀ h0 hb k v h
    rw [List.foldl_cons] at h
    refine ih _ ?_ hb k v h
    intro k' v' h'
    by_cases hc : cond p.2 = true
    · rw [if_pos hc, dictGet?_set] at h'
      split at h'
      · exact (Option.some.inj h') ▸ hb p.1 p.2
      · exact h0 _ _ h'
    · rw [if_neg hc] at h'
      exact h0 _ _ h'

theorem nodup_keys_foldl_guardSet {α β : Type}
    (raws : List (String × β)) (cond : β → Bool) (build : String → β → α) :
    ∀ acc₀ : List (String × α), (acc₀.map Prod.fst).Nodup →
      ((raws.foldl (fun acc p =>
        if cond p.2 then dictSet acc p.1 (build p.1 p.2) else acc)
          acc₀).map Prod.fst).Nodup := by
  induction raws with
  | nil =>
    intro acc₀ h0
    exact h0
  | cons p rest ih =>
    intro acc₀ h0
    rw [List.foldl_cons]
    refine ih _ ?_
    by_cases hc : cond p.2 = true
    · rw [if_pos hc]
      exact nodup_keys_dictSet acc₀ p.1 _ h0
    · rw [if_neg hc]
      exact h0

theorem loaded_models_prop (m : RawManifest) :
    ∀ k v, dictGet? (loadedLoader m).models k = some v →
      v.parents = [] ∧ v.children = [] := by
  have h := dictGet?_foldl_guardSet
    (fun v : Model => v.parents = [] ∧ v.children = [])
    (Loader.reindexStage (initLoader m)).raw_nodes
    (fun b => b.resource_type == "model")
    (fun k b => Model.from_node b
      ((dictGet? (Loader.reindexStage (initLoader m)).tests k).getD []))
    []
    (by intro k v hh; simp [dictGet?] at hh)
    (by intro k b; exact ⟨rfl, rfl⟩)
  intro k v hkv
  exact h k v hkv

theorem loaded_snapshots_prop (m : RawManifest) :
    ∀ k v, dictGet? (loadedLoader m).snapshots k = some v →
      v.parents = [] ∧ v.children = [] := by
  have h := dictGet?_foldl_guardSet
    (fun v : Snapshot => v.parents = [] ∧ v.children = [])
    (Loader.reindexStage (initLoader m)).raw_nodes
    (fun b => b.resource_type == "snapshot")
    (fun k b => Snapshot.from_node b
      ((dictGet? (Loader.reindexStage (initLoader m)).tests k).getD []))
    []
    (by intro k v hh; simp [dictGet?] at hh)
    (by intro k b; exact ⟨rfl, rfl⟩)
  intro k v hkv
  exact h k v hkv

theorem loaded_sources_prop (m : RawManifest) :
    ∀ k v, dictGet? (loadedLoader m).sources k = some v →
      v.children = [] := by
  have h := dictGet?_foldl_guardSet
    (fun v : Source => v.children = [])
    (Loader.reindexStage (initLoader m)).raw_sources
    (fun b => b.resource_type == "source")
    (fun k b => Source.from_node b
      ((dictGet? (Loader.reindexStage (initLoader m)).tests k).getD []))
    []
    (by intro k v hh; simp [dictGet?] at hh)
    (by intro k b; exact rfl)
  intro k v hkv
  exact h k v hkv

theorem loaded_seeds_prop (m : RawManifest) :
    ∀ k v, dictGet? (loadedLoader m).seeds k = some v →
      v.children = [] := by
  have h := dictGet?_foldl_guardSet
    (fun v : Seed => v.children = [])
    (Loader.reindexStage (initLoader m)).raw_nodes
    (fun b => b.resource_type == "seed")
    (fun k b => Seed.from_node b
      ((dictGet? (Loader.reindexStage (initLoader m)).tests k).getD []))
    []
    (by intro k v hh; simp [dictGet?] at hh)
    (by intro k b; exact rfl)
  intro k v hkv
  exact h k v hkv

theorem loaded_exposures_prop (m : RawManifest) :
    ∀ k v, dictGet? (loadedLoader m).exposures k = some v →
      v.parents = [] := by
  have h := dictGet?_foldl_guardSet
    (fun v : Exposure => v.parents = [])
    (Loader.reindexStage (initLoader m)).raw_exposures
    (fun b => b.resource_type == "exposure")
    (fun k b => Exposure.from_node b)
    []
    (by intro k v hh; simp [dictGet?] at hh)
    (by intro k b; exact rfl)
  intro k v hkv
  exact h k v hkv

theorem loadedLoader_emptyEdges (m : RawManifest) :
    EmptyEdges (loadedLoader m) := by
  intro x
  obtain ⟨xk, xi⟩ := x
  cases xk <;>
    simp only [parentsOfRef, childrenOfRef, Loader.lookupEval] <;>
    constructor <;>
    (first
      | (cases hx : dictGet? (loadedLoader m).models xi with
          | none => simp
          | some v =>
            simp [Evaluable.parentsRefs, Evaluable.childrenRefs,
              loaded_models_prop m xi v hx])
      | (cases hx : dictGet? (loadedLoader m).snapshots xi with
          | none => simp
          | some v =>
            simp [Evaluable.parentsRefs, Evaluable.childrenRefs,
              loaded_snapshots_prop m xi v hx])
      | (cases hx : dictGet? (loadedLoader m).sources xi with
          | none => simp
          | some v =>
            simp [Evaluable.parentsRefs, Evaluable.childrenRefs,
              loaded_sources_prop m xi v hx])
      | (cases hx : dictGet? (loadedLoader m).seeds xi with
          | none => simp
          | some v =>
            simp [Evaluable.parentsRefs, Evaluable.childrenRefs,
              loaded_seeds_prop m xi v hx])
      | (cases hx : dictGet? (loadedLoader m).exposures xi with
          | none => simp
          | some v =>
            simp [Evaluable.parentsRefs, Evaluable.childrenRefs,
              loaded_exposures_prop m xi v hx]))

theorem loaded_nodup_keys (m : RawManifest) :
    ((loadedLoader m).models.map Prod.fst).Nodup ∧
      ((loadedLoader m).sources.map Prod.fst).Nodup ∧
      ((loadedLoader m).snapshots.map Prod.fst).Nodup ∧
      ((loadedLoader m).seeds.map Prod.fst).Nodup ∧
      ((loadedLoader m).exposures.map Prod.fst).Nodup := by
  refine ⟨?_, ?_, ?_, ?_, ?_⟩
  · exact nodup_keys_foldl_guardSet
      (Loader.reindexStage (initLoader m)).raw_nodes
      (fun b => b.resource_type == "model")
      (fun k b => Model.from_node b
        ((dictGet? (Loader.reindexStage (initLoader m)).tests k).getD []))
      [] (by simp)
  · exact nodup_keys_foldl_guardSet
      (Loader.reindexStage (initLoader m)).raw_sources
      (fun b => b.resource_type == "source")
      (fun k b => Source.from_node b
        ((dictGet? (Loader.reindexStage (initLoader m)).tests k).getD []))
      [] (by simp)
  · exact nodup_keys_foldl_guardSet
      (Loader.reindexStage (initLoader m)).raw_nodes
      (fun b => b.resource_type == "snapshot")
      (fun k b => Snapshot.from_node b
        ((dictGet? (Loader.reindexStage (initLoader m)).tests k).getD []))
      [] (by simp)
  · exact nodup_keys_foldl_guardSet
      (Loader.reindexStage (initLoader m)).raw_nodes
      (fun b => b.resource_type == "seed")
      (fun k b => Seed.from_node b
        ((dictGet? (Loader.reindexStage (initLoader m)).tests k).getD []))
      [] (by simp)
  · exact nodup_keys_foldl_guardSet
      (Loader.reindexStage (initLoader m)).raw_exposures
      (fun b => b.resource_type == "exposure")
      (fun k b => Exposure.from_node b)
      [] (by simp)

/-- Invariants of the pre-filter loader state. -/
theorem preFilter_inv (m : RawManifest) :
    EdgeSym (preFilterLoader m) ∧ RefsOk (preFilterLoader m) ∧
      (preFilterLoader m).keys = (loadedLoader m).keys :=
  inv_populateRelatives (loadedLoader m) (loadedLoader_emptyEdges m)

theorem preFilter_nodup_keys (m : RawManifest) :
    ((preFilterLoader m).models.map Prod.fst).Nodup ∧
      ((preFilterLoader m).sources.map Prod.fst).Nodup ∧
      ((preFilterLoader m).snapshots.map Prod.fst).Nodup ∧
      ((preFilterLoader m).seeds.map Prod.fst).Nodup ∧
      ((preFilterLoader m).exposures.map Prod.fst).Nodup := by
  have hk := (preFilter_inv m).2.2
  simp only [Loader.keys, Prod.mk.injEq] at hk
  obtain ⟨h1, h2, h3, h4, h5⟩ := hk
  obtain ⟨n1, n2, n3, n4, n5⟩ := loaded_nodup_keys m
  exact ⟨h1 ▸ n1, h2 ▸ n2, h3 ▸ n3, h4 ▸ n4, h5 ▸ n5⟩

theorem dictGet?_filter_some {α : Type} (l : List (String × α))
    (q : String × α → Bool) (k : String) (v : α)
    (h : (l.map Prod.fst).Nodup) (hf : dictGet? (l.filter q) k = some v) :
    dictGet? l k = some v := by
  rw [dictGet?_filter l q k h] at hf
  cases hdg : dictGet? l k with
  | none => rw [hdg] at hf; cases hf
  | some w =>
    rw [hdg] at hf
    simp only [Option.some_bind'] at hf
    split at hf
    · exact congrArg some (Option.some.inj hf)
    · cases hf

/-- Filtering the evaluables never invents entries: an entity found in the
filtered loader is the same entity stored pre-filter. -/
theorem lookup_filterEvaluables_some (m : RawManifest) (sel : List String)
    (f : List String → List String) (x : Ref) (E : Evaluable)
    (h : ((filterEvaluables (preFilterLoader m) sel f).1.lookupEval x) =
      some E) :
    (preFilterLoader m).lookupEval x = some E := by
  obtain ⟨n1, n2, n3, n4, n5⟩ := preFilter_nodup_keys m
  obtain ⟨xk, xi⟩ := x
  cases xk <;>
    simp only [filterEvaluables, Loader.lookupEval] at h ⊢ <;>
    rw [Option.map_eq_some'] at h <;>
    obtain ⟨v, hv, rfl⟩ := h <;>
    rw [Option.map_eq_some']
  · exact ⟨v, dictGet?_filter_some _ _ _ _ n1 hv, rfl⟩
  · exact ⟨v, dictGet?_filter_some _ _ _ _ n2 hv, rfl⟩
  · exact ⟨v, dictGet?_filter_some _ _ _ _ n3 hv, rfl⟩
  · exact ⟨v, dictGet?_filter_some _ _ _ _ n4 hv, rfl⟩
  · exact ⟨v, dictGet?_filter_some _ _ _ _ n5 hv, rfl⟩

/-- Whatever the selection argument, an entity of the final loader is the
same entity (with the same edge lists) stored in the pre-filter state. -/
theorem loadManifest_lookup_some (m : RawManifest)
    (select : Option (List String)) (f : List String → List String)
    (x : Ref) (E : Evaluable)
    (h : (loadManifest m select f).loader.lookupEval x = some E) :
    (preFilterLoader m).lookupEval x = some E := by
  cases select with
  | none => exact h
  | some sel =>
    by_cases hsel : sel.isEmpty = true
    · simpa [loadManifest, hsel] using h
    · rw [loadManifest] at h
      simp only [hsel] at h
      exact lookup_filterEvaluables_some m sel f x E (by simpa using h)

/-! ## Quoted-identifier stripping lemmas -/

theorem dropWhile_append_of_ne_nil {α : Type} (p : α → Bool)
    (l₁ l₂ : List α) (h : l₁.dropWhile p ≠ []) :
    (l₁ ++ l₂).dropWhile p = l₁.dropWhile p ++ l₂ := by
  induction l₁ with
  | nil => simp [List.dropWhile] at h
  | cons a l ih =>
    by_cases hp : p a = true
    · simp only [List.cons_append, List.dropWhile_cons, hp, if_pos] at h ⊢
      exact ih h
    · simp [List.cons_append, List.dropWhile_cons, hp]

theorem stripBackticksL_cons (cs : List Char) :
    stripBackticksL (backtickChar :: cs) = stripBackticksL cs := by
  unfold stripBackticksL
  simp [List.dropWhile_cons]

theorem stripBackticksL_concat (cs : List Char) :
    stripBackticksL (cs ++ [backtickChar]) = stripBackticksL cs := by
  unfold stripBackticksL
  by_cases h : cs.dropWhile (· == backtickChar) = []
  · have hall : ∀ x ∈ cs, (x == backtickChar) = true := by
      rw [← List.dropWhile_eq_nil_iff]
      exact h
    have h2 : (cs ++ [backtickChar]).dropWhile (· == backtickChar) = [] := by
      rw [List.dropWhile_eq_nil_iff]
      intro x hx
      rcases List.mem_append.mp hx with hx | hx
      · exact hall x hx
      · rw [List.mem_singleton.mp hx]
        rfl
    rw [h, h2]
  · rw [dropWhile_append_of_ne_nil _ _ _ h, List.reverse_append]
    simp [List.dropWhile_cons]

theorem stripBackticks_wrap (s : String) :
    stripBackticks ("`" ++ s ++ "`") = stripBackticks s := by
  unfold stripBackticks
  congr 1
  rw [String.data_append, String.data_append]
  show stripBackticksL ((backtickChar :: s.data) ++ [backtickChar]) = stripBackticksL s.data
  rw [stripBackticksL_concat, stripBackticksL_cons]

/-! ## Test and column attachment lemmas -/

theorem Test.from_node_inj {u t : RawNode}
    (h : Test.from_node u = Test.from_node t) : u = t :=
  congrArg Test.raw_values h

/-! ## Test reindexing lemmas -/

theorem reindexStep_get (tests₀ : List (String × List RawNode)) (nv : RawNode)
    (key : String) :
    (dictGet? (reindexStep tests₀ nv) key).getD [] =
      (dictGet? tests₀ key).getD [] ++
        (if testTarget nv == some key then [nv] else []) := by
  unfold reindexStep testTarget
  by_cases ht : (nv.resource_type == "test") = true
  · rw [if_pos ht, if_pos ht]
    cases han : pyTruthyStr nv.attached_node with
    | some a =>
      rw [dictGet?_dictAppend]
      by_cases hk : key = a
      · subst hk
        simp
      · simp [hk, Ne.symm hk]
    | none =>
      cases hdn :
          pyTruthyStr ((dictGet? nv.depends_on "nodes").getD []).head? with
      | some nid =>
        rw [dictGet?_dictAppend]
        by_cases hk : key = nid
        · subst hk
          simp
        · simp [hk, Ne.symm hk]
      | none => simp
  · rw [if_neg ht, if_neg ht]
    simp

theorem reindexTests_get (raws : List (String × RawNode)) :
    ∀ (tests₀ : List (String × List RawNode)) (key : String),
      (dictGet? (reindexTests tests₀ raws) key).getD [] =
        (dictGet? tests₀ key).getD [] ++
          (raws.map Prod.snd).filter (fun nv => testTarget nv == some key) := by
  induction raws with
  | nil =>
    intro tests₀ key
    simp [reindexTests]
  | cons p rest ih =>
    intro tests₀ key
    have hstep : reindexTests tests₀ (p :: rest) =
        reindexTests (reindexStep tests₀ p.2) rest := rfl
    rw [hstep, ih, reindexStep_get, List.map_cons, List.filter_cons,
      List.append_assoc]
    by_cases hk : (testTarget p.2 == some key) = true
    · rw [if_pos hk, if_pos hk]
      rfl
    · rw [if_neg hk, if_neg hk]
      rfl

/-! ## Claim theorems -/

/-- Claim C4 (amended): `_reindex_tests` indexes each raw record of resource
type `test` under the entity id given by its truthy `attached_node`, or
failing that under the **first** entry of its `depends_on["nodes"]` list when
that entry is truthy; every other record is silently dropped, and the index
at each key holds exactly the matching test records in manifest order, so a
test is indexed under at most one entity id. -/
theorem c4_test_reindex (raws : List (String × RawNode)) (key : String) :
    (dictGet? (reindexTests [] raws) key).getD [] =
      (raws.map Prod.snd).filter (fun nv => testTarget nv == some key) := by
  rw [reindexTests_get raws [] key]
  rfl

/-- Claim C4, counterexample: a test with a null `attached_node` and **two**
upstream dependencies is not dropped (as the claim's "exactly one
dependency" rule requires) — it is indexed under the first dependency. -/
theorem c4_counterexample :
    (dictGet? (reindexTests [] [("test.p.t2", tTwoDeps)]) "model.p.a").getD []
      = [tTwoDeps] := by decide

/-- Claim C10: a `None` selection and an empty selection list are both falsy
for `if select:`, so no filtering happens at all — the result is exactly the
fully-loaded, edge-resolved pre-filter state, and `dbt_ls` is not called. -/
theorem c10_empty_selection (m : RawManifest)
    (f : List String → List String) :
    loadManifest m none f = loadManifest m (some []) f ∧
      (loadManifest m none f).loader = preFilterLoader m ∧
      (loadManifest m none f).dbt_ls_calls = 0 :=
  ⟨rfl, rfl, rfl⟩

/-- Claim C2: on the two-model chain manifest, the model `m1` stored in
`m0.children` is the shared loader object whose own `parents` list is
populated (it holds `m0` and the source `s0`) — the one-hop-only claim, and
the repository's own test expectation of unpopulated neighbours
(`tests/test_models.py`), do not hold for this code. -/
theorem c2_neighbor_carries_relatives :
    childrenOfRef (loadManifest chainManifest none (fun s => s)).loader
        (Kind.model, "model.p.m0") = [(Kind.model, "model.p.m1")] ∧
      parentsOfRef (loadManifest chainManifest none (fun s => s)).loader
          (Kind.model, "model.p.m1") =
        [(Kind.model, "model.p.m0"), (Kind.source, "source.p.src.s0")] := by
  decide

/-- Claim C5, counterexample: two models with the same `unique_id` but
different names do **not** compare equal — the generated dataclass `__eq__`
compares every field, only `__hash__` is id-based. -/
theorem c5_counterexample :
    mEqA.unique_id = mEqB.unique_id ∧ mEqA ≠ mEqB :=
  ⟨rfl, by decide⟩

/-- Claim C5 (amended): for every entity kind, `__hash__` is determined
solely by `unique_id` (entities with equal ids hash equal whatever the other
fields hold), while equality is structural over all dataclass fields — so
entities with different `unique_id` always compare unequal, but equal
`unique_id` alone does not imply equality. -/
theorem c5_identity (hashStr : String → Int) :
    (∀ m1 m2 : Model, m1.unique_id = m2.unique_id →
      Model.pyHash hashStr m1 = Model.pyHash hashStr m2) ∧
    (∀ s1 s2 : Source, s1.unique_id = s2.unique_id →
      Source.pyHash hashStr s1 = Source.pyHash hashStr s2) ∧
    (∀ s1 s2 : Snapshot, s1.unique_id = s2.unique_id →
      Snapshot.pyHash hashStr s1 = Snapshot.pyHash hashStr s2) ∧
    (∀ s1 s2 : Seed, s1.unique_id = s2.unique_id →
      Seed.pyHash hashStr s1 = Seed.pyHash hashStr s2) ∧
    (∀ e1 e2 : Exposure, e1.unique_id = e2.unique_id →
      Exposure.pyHash hashStr e1 = Exposure.pyHash hashStr e2) ∧
    (∀ m1 m2 : Model, m1.unique_id ≠ m2.unique_id → m1 ≠ m2) ∧
    (∀ s1 s2 : Source, s1.unique_id ≠ s2.unique_id → s1 ≠ s2) ∧
    (∀ s1 s2 : Snapshot, s1.unique_id ≠ s2.unique_id → s1 ≠ s2) ∧
    (∀ s1 s2 : Seed, s1.unique_id ≠ s2.unique_id → s1 ≠ s2) ∧
    (∀ e1 e2 : Exposure, e1.unique_id ≠ e2.unique_id → e1 ≠ e2) :=
  ⟨fun _ _ h => congrArg hashStr h,
    fun _ _ h => congrArg hashStr h,
    fun _ _ h => congrArg hashStr h,
    fun _ _ h => congrArg hashStr h,
    fun _ _ h => congrArg hashStr h,
    fun _ _ hne h => hne (congrArg Model.unique_id h),
    fun _ _ hne h => hne (congrArg Source.unique_id h),
    fun _ _ hne h => hne (congrArg Snapshot.unique_id h),
    fun _ _ hne h => hne (congrArg Seed.unique_id h),
    fun _ _ hne h => hne (congrArg Exposure.unique_id h)⟩

/-- Claim C5, witness: on the concrete models, equal ids give equal hashes
(for an arbitrary concrete string hash) and distinct ids give distinct
objects. -/
theorem c5_identity_witness :
    Model.pyHash (fun s => (s.length : Int)) mEqA =
        Model.pyHash (fun s => (s.length : Int)) mEqB ∧
      mEqA ≠ mDiff := by
  obtain ⟨hm, _, _, _, _, hm2, _⟩ := c5_identity (fun s => (s.length : Int))
  exact ⟨hm mEqA mEqB rfl, hm2 mEqA mDiff (by decide)⟩

/-! ### Attachment helper lemmas (shared by the column-test claims) -/

theorem mem_entityTests_of_not_truthy (tv : List RawNode) (t : RawNode)
    (ht : t ∈ tv) (hfalse : truthyColumnName t = false) :
    Test.from_node t ∈ entityTests tv := by
  unfold entityTests
  exact List.mem_map_of_mem _ (List.mem_filter.mpr ⟨ht, by simp [hfalse]⟩)

theorem not_mem_entityTests_of_truthy (tv : List RawNode) (t : RawNode)
    (htrue : truthyColumnName t = true) :
    Test.from_node t ∉ entityTests tv := by
  intro hmem
  unfold entityTests at hmem
  obtain ⟨u, hu, hequ⟩ := List.mem_map.mp hmem
  rw [Test.from_node_inj hequ] at hu
  have := (List.mem_filter.mp hu).2
  rw [htrue] at this
  cases this

theorem column_mem_getColumns (nv : RawNode) (tv : List RawNode)
    (nm : String) (cv : RawColumn) (hcol : (nm, cv) ∈ nv.columns) :
    Column.from_node_values cv
        (tv.filter (fun u => stripBackticks (testColumnNameD u) == nm)) ∈
      getColumns nv tv := by
  unfold getColumns
  exact List.mem_map_of_mem _ hcol

theorem test_mem_column_of_strip_eq (tv : List RawNode) (t : RawNode)
    (nm : String) (cv : RawColumn) (ht : t ∈ tv)
    (hstrip : stripBackticks (testColumnNameD t) = nm) :
    Test.from_node t ∈ (Column.from_node_values cv
      (tv.filter (fun u => stripBackticks (testColumnNameD u) == nm))).tests := by
  show Test.from_node t ∈
    (tv.filter (fun u => stripBackticks (testColumnNameD u) == nm)).map
      Test.from_node
  refine List.mem_map_of_mem _ (List.mem_filter.mpr ⟨ht, ?_⟩)
  exact beq_iff_eq.mpr hstrip

theorem not_mem_column_tests_of_no_match (nv : RawNode) (tv : List RawNode)
    (t : RawNode)
    (hnone : ∀ nm ∈ nv.columns.map Prod.fst,
      stripBackticks (testColumnNameD t) ≠ nm) :
    ∀ c ∈ getColumns nv tv, Test.from_node t ∉ c.tests := by
  intro c hc hmem
  unfold getColumns at hc
  obtain ⟨p, hp, rfl⟩ := List.mem_map.mp hc
  obtain ⟨u, hu, hequ⟩ := List.mem_map.mp hmem
  rw [Test.from_node_inj hequ] at hu
  have hbeq := (List.mem_filter.mp hu).2
  exact hnone p.1 (List.mem_map_of_mem Prod.fst hp) (beq_iff_eq.mp hbeq)

/-- Claim C3 (amended): for an entity built by `Model.from_node`, a test
whose `column_name` kwarg is missing or empty always attaches to the entity
itself; a test with a truthy `column_name` never appears in the entity's own
test list; if the backtick-stripped `column_name` equals a declared column
key, the test attaches to that column; and if it matches no declared column
key, the test appears in **no** column — so a test with a non-empty,
non-matching `column_name` attaches nowhere at all (not to the entity, as
the original claim stated), and a test with an empty or missing
`column_name` attaches to no column as long as no column is declared under
the empty-string key. -/
theorem c3_test_attachment (nv : RawNode) (tv : List RawNode) (t : RawNode)
    (ht : t ∈ tv) :
    (truthyColumnName t = false →
      Test.from_node t ∈ (Model.from_node nv tv).tests) ∧
    (truthyColumnName t = true →
      Test.from_node t ∉ (Model.from_node nv tv).tests) ∧
    (∀ nm cv, (nm, cv) ∈ nv.columns →
      stripBackticks (testColumnNameD t) = nm →
      Column.from_node_values cv
          (tv.filter (fun u => stripBackticks (testColumnNameD u) == nm)) ∈
        (Model.from_node nv tv).columns ∧
      Test.from_node t ∈ (Column.from_node_values cv
        (tv.filter (fun u =>
          stripBackticks (testColumnNameD u) == nm))).tests) ∧
    ((∀ nm ∈ nv.columns.map Prod.fst,
        stripBackticks (testColumnNameD t) ≠ nm) →
      ∀ c ∈ (Model.from_node nv tv).columns, Test.from_node t ∉ c.tests) := by
  refine ⟨?_, ?_, ?_, ?_⟩
  · intro hfalse
    exact mem_entityTests_of_not_truthy tv t ht hfalse
  · intro htrue
    exact not_mem_entityTests_of_truthy tv t htrue
  · intro nm cv hcol hstrip
    exact ⟨column_mem_getColumns nv tv nm cv hcol,
      test_mem_column_of_strip_eq tv t nm cv ht hstrip⟩
  · intro hnone
    exact not_mem_column_tests_of_no_match nv tv t hnone

/-- Claim C3, counterexample: `tOrphan` has the non-empty `column_name`
`"b"`, which matches no declared column of `nvCols` — the claim says it
attaches to the entity, but the code attaches it neither to the entity's
test list nor to any column. -/
theorem c3_counterexample :
    truthyColumnName tOrphan = true ∧
      (Model.from_node nvCols [tOrphan]).tests = [] ∧
      (Model.from_node nvCols [tOrphan]).columns.map Column.tests = [[]] := by
  decide

/-- Claim C3, witness: on the concrete column fixture, a test without a
`column_name` lands in the entity's test list while the orphan test is kept
out of it. -/
theorem c3_test_attachment_witness :
    Test.from_node tEnt ∈ (Model.from_node nvCols [tEnt, tOrphan]).tests ∧
      Test.from_node tOrphan ∉
        (Model.from_node nvCols [tEnt, tOrphan]).tests := by
  have h1 := c3_test_attachment nvCols [tEnt, tOrphan] tEnt (by decide)
  have h2 := c3_test_attachment nvCols [tEnt, tOrphan] tOrphan (by decide)
  exact ⟨h1.1 (by decide), h2.2.1 (by decide)⟩

/-- Claim C9 (amended): the normalization applied before comparing a test's
`column_name` against declared column keys strips **backtick** characters
only (`.strip("\x60")`, for BigQuery-style quoting), so a test whose
`column_name` is the backtick-quoted form of a declared (unquoted) column
key attaches to that column; other quote characters are not stripped. -/
theorem c9_backtick_normalization (nv : RawNode) (tv : List RawNode)
    (t : RawNode) (nm : String) (cv : RawColumn)
    (ht : t ∈ tv) (hcol : (nm, cv) ∈ nv.columns)
    (hnm : stripBackticks nm = nm)
    (hq : testColumnNameD t = "`" ++ nm ++ "`") :
    Column.from_node_values cv
        (tv.filter (fun u => stripBackticks (testColumnNameD u) == nm)) ∈
      (Model.from_node nv tv).columns ∧
    Test.from_node t ∈ (Column.from_node_values cv
      (tv.filter (fun u => stripBackticks (testColumnNameD u) == nm))).tests := by
  have hstrip : stripBackticks (testColumnNameD t) = nm := by
    rw [hq, stripBackticks_wrap, hnm]
  exact ⟨column_mem_getColumns nv tv nm cv hcol,
    test_mem_column_of_strip_eq tv t nm cv ht hstrip⟩

/-- Claim C9, counterexample: a test whose `column_name` is the
double-quoted form `"a"` of the declared column `a` is **not** attached to
that column (nor to the entity) — only backticks are stripped, not quote
characters, contradicting the claimed backtick-and-quote normalization. -/
theorem c9_counterexample :
    testColumnNameD tDq = "\"a\"" ∧
      stripBackticks (testColumnNameD tDq) ≠ "a" ∧
      (Model.from_node nvCols [tDq]).tests = [] ∧
      (Model.from_node nvCols [tDq]).columns.map Column.tests = [[]] := by
  decide

/-- Claim C9, witness: the backtick-quoted test `tBt` attaches to the
declared column `a` of the concrete fixture. -/
theorem c9_backtick_normalization_witness :
    Test.from_node tBt ∈ (Column.from_node_values rcA
      ([tBt].filter (fun u =>
        stripBackticks (testColumnNameD u) == "a"))).tests :=
  (c9_backtick_normalization nvCols [tBt] tBt "a" rcA (by decide) (by decide)
    (by decide) (by decide)).2

/-- Claim C6: a dependency id is looked up across the four edge-eligible
collections in the fixed order models, snapshots, sources, seeds; the edge
pair is created for the first collection containing the id (a model hit
shadows a source with the same id), and an id found in none of them leaves
the state completely unchanged — a miss is silently ignored. -/
theorem c6_dependency_precedence (st : Loader) (dep : Ref) (pid : String)
    (hdep : (st.lookupEval dep).isSome = true)
    (hdk : kindHasParents dep.1 = true) :
    ((dictGet? st.models pid).isSome = true →
      parentsOfRef (resolveOne st dep pid) dep =
        parentsOfRef st dep ++ [(Kind.model, pid)]) ∧
    ((dictGet? st.models pid).isSome = false →
      (dictGet? st.snapshots pid).isSome = true →
      parentsOfRef (resolveOne st dep pid) dep =
        parentsOfRef st dep ++ [(Kind.snapshot, pid)]) ∧
    ((dictGet? st.models pid).isSome = false →
      (dictGet? st.snapshots pid).isSome = false →
      (dictGet? st.sources pid).isSome = true →
      parentsOfRef (resolveOne st dep pid) dep =
        parentsOfRef st dep ++ [(Kind.source, pid)]) ∧
    ((dictGet? st.models pid).isSome = false →
      (dictGet? st.snapshots pid).isSome = false →
      (dictGet? st.sources pid).isSome = false →
      (dictGet? st.seeds pid).isSome = true →
      parentsOfRef (resolveOne st dep pid) dep =
        parentsOfRef st dep ++ [(Kind.seed, pid)]) ∧
    ((dictGet? st.models pid).isSome = false →
      (dictGet? st.snapshots pid).isSome = false →
      (dictGet? st.sources pid).isSome = false →
      (dictGet? st.seeds pid).isSome = false →
      resolveOne st dep pid = st) := by
  refine ⟨?_, ?_, ?_, ?_, ?_⟩
  · intro h1
    simp only [resolveOne, h1, if_true]
    rw [parentsOfRef_appendEdge st dep (Kind.model, pid) dep hdep]
    simp [hdk]
  · intro h1 h2
    simp only [resolveOne, h1, h2, if_true, Bool.false_eq_true, if_false]
    rw [parentsOfRef_appendEdge st dep (Kind.snapshot, pid) dep hdep]
    simp [hdk]
  · intro h1 h2 h3
    simp only [resolveOne, h1, h2, h3, if_true, Bool.false_eq_true, if_false]
    rw [parentsOfRef_appendEdge st dep (Kind.source, pid) dep hdep]
    simp [hdk]
  · intro h1 h2 h3 h4
    simp only [resolveOne, h1, h2, h3, h4, if_true, Bool.false_eq_true,
      if_false]
    rw [parentsOfRef_appendEdge st dep (Kind.seed, pid) dep hdep]
    simp [hdk]
  · intro h1 h2 h3 h4
    simp [resolveOne, h1, h2, h3, h4]

/-- Claim C6, witness: in a state where a model and a source share the id
`X`, the resolved parent edge of the dependent targets the **model** `X`. -/
theorem c6_dependency_precedence_witness :
    parentsOfRef (resolveOne stPrec (Kind.model, "dep") "X")
        (Kind.model, "dep") =
      parentsOfRef stPrec (Kind.model, "dep") ++ [(Kind.model, "X")] :=
  (c6_dependency_precedence stPrec (Kind.model, "dep") "X" (by decide)
    rfl).1 (by decide)

theorem isSimpleSelector_iff (x : String) :
    isSimpleSelector x = true ↔
      (x ≠ "" ∧ ∀ c ∈ x.data, isWordChar c = true) := by
  unfold isSimpleSelector
  rw [Bool.and_eq_true, List.all_eq_true]
  constructor
  · rintro ⟨h1, h2⟩
    refine ⟨?_, h2⟩
    intro hx
    subst hx
    simp at h1
  · rintro ⟨h1, h2⟩
    refine ⟨?_, h2⟩
    have hdata : x.data ≠ [] := by
      intro hnil
      exact h1 (String.ext hnil)
    simp [List.isEmpty_iff, hdata]

theorem all_isSimple_iff (sel : List String) :
    sel.all isSimpleSelector = true ↔
      ∀ x ∈ sel, x ≠ "" ∧ ∀ c ∈ x.data, isWordChar c = true := by
  rw [List.all_eq_true]
  constructor <;> intro h x hx
  · exact (isSimpleSelector_iff x).mp (h x hx)
  · exact (isSimpleSelector_iff x).mpr (h x hx)

/-- Claim C8 (amended): when every selection expression is a **non-empty**
token of word characters (`[a-zA-Z0-9_]+`), the expression list itself is the
selected-name set and `dbt_ls` is never invoked; when any expression falls
outside that shape (including the empty string, which the regex `fullmatch`
rejects), `dbt_ls` is invoked exactly once on the full expression list and
its result is the selected-name set. -/
theorem c8_selector_fast_path (st : Loader) (sel : List String)
    (f : List String → List String) :
    ((∀ x ∈ sel, x ≠ "" ∧ ∀ c ∈ x.data, isWordChar c = true) →
      (filterEvaluables st sel f).2 = 0 ∧
      (filterEvaluables st sel f).1.models =
        st.models.filter (fun p => sel.contains p.2.name) ∧
      (filterEvaluables st sel f).1.sources =
        st.sources.filter (fun p => sel.contains p.2.selector_name) ∧
      (filterEvaluables st sel f).1.snapshots =
        st.snapshots.filter (fun p => sel.contains p.2.name) ∧
      (filterEvaluables st sel f).1.exposures =
        st.exposures.filter (fun p => sel.contains p.2.name) ∧
      (filterEvaluables st sel f).1.seeds =
        st.seeds.filter (fun p => sel.contains p.2.name)) ∧
    ((¬ ∀ x ∈ sel, x ≠ "" ∧ ∀ c ∈ x.data, isWordChar c = true) →
      (filterEvaluables st sel f).2 = 1 ∧
      (filterEvaluables st sel f).1.models =
        st.models.filter (fun p => (f sel).contains p.2.name) ∧
      (filterEvaluables st sel f).1.sources =
        st.sources.filter (fun p => (f sel).contains p.2.selector_name) ∧
      (filterEvaluables st sel f).1.snapshots =
        st.snapshots.filter (fun p => (f sel).contains p.2.name) ∧
      (filterEvaluables st sel f).1.exposures =
        st.exposures.filter (fun p => (f sel).contains p.2.name) ∧
      (filterEvaluables st sel f).1.seeds =
        st.seeds.filter (fun p => (f sel).contains p.2.name)) := by
  constructor
  · intro hall
    have hfast : sel.all isSimpleSelector = true :=
      (all_isSimple_iff sel).mpr hall
    simp [filterEvaluables, hfast]
  · intro hbad
    have hfast : sel.all isSimpleSelector = false := by
      cases hf : sel.all isSimpleSelector
      · rfl
      · exact absurd ((all_isSimple_iff sel).mp hf) hbad
    simp [filterEvaluables, hfast]

/-- Claim C8, counterexample: the selection `[""]` consists only of
expressions whose characters are all word characters (vacuously), yet the
code takes the general path and invokes `dbt_ls` — `fullmatch` of
`[a-zA-Z0-9_]+` rejects the empty expression. -/
theorem c8_counterexample :
    (∀ x ∈ ([""] : List String), ∀ c ∈ x.data, isWordChar c = true) ∧
      (filterEvaluables ({} : Loader) [""] (fun _ => [])).2 = 1 := by
  constructor
  · intro x hx c hc
    rw [List.mem_singleton.mp hx] at hc
    cases hc
  · decide

/-- Claim C8, witness: a single bare-word selection takes the fast path and
never calls `dbt_ls`. -/
theorem c8_selector_fast_path_witness :
    (filterEvaluables ({} : Loader) ["my_model"] (fun _ => [])).2 = 0 :=
  ((c8_selector_fast_path ({} : Loader) ["my_model"] (fun _ => [])).1
    (by decide)).1

/-- Claim C1: in every loaded manifest (whatever the selection), the
parents/children edges of the entities present in the result are symmetric —
`b` appears in `a`'s children exactly when `a` appears in `b`'s parents —
and the edges come in matched pairs: the number of child edges from `a` to
`b` equals the number of parent edges from `b` to `a`, since each resolved
dependency appends exactly one parent edge on the dependent and one child
edge on the ancestor. -/
theorem c1_edge_symmetry (m : RawManifest) (select : Option (List String))
    (f : List String → List String) (a b : Ref)
    (ha : ((loadManifest m select f).loader.lookupEval a).isSome = true)
    (hb : ((loadManifest m select f).loader.lookupEval b).isSome = true) :
    (b ∈ childrenOfRef (loadManifest m select f).loader a ↔
      a ∈ parentsOfRef (loadManifest m select f).loader b) ∧
    List.count b (childrenOfRef (loadManifest m select f).loader a) =
      List.count a (parentsOfRef (loadManifest m select f).loader b) := by
  obtain ⟨A, hA⟩ := Option.isSome_iff_exists.mp ha
  obtain ⟨B, hB⟩ := Option.isSome_iff_exists.mp hb
  have hA' := loadManifest_lookup_some m select f a A hA
  have hB' := loadManifest_lookup_some m select f b B hB
  have hca : childrenOfRef (loadManifest m select f).loader a =
      childrenOfRef (preFilterLoader m) a := by
    simp [childrenOfRef, hA, hA']
  have hpb : parentsOfRef (loadManifest m select f).loader b =
      parentsOfRef (preFilterLoader m) b := by
    simp [parentsOfRef, hB, hB']
  have hsym := (preFilter_inv m).1 a b
  rw [hca, hpb]
  refine ⟨?_, hsym⟩
  constructor
  · intro hmem
    have hc := List.count_pos_iff.mpr hmem
    rw [hsym] at hc
    exact List.count_pos_iff.mp hc
  · intro hmem
    have hc := List.count_pos_iff.mpr hmem
    rw [← hsym] at hc
    exact List.count_pos_iff.mp hc

/-- Claim C1, witness: on the two-model chain, `m1 ∈ m0.children` iff
`m0 ∈ m1.parents`, with matching edge counts. -/
theorem c1_edge_symmetry_witness :
    (((Kind.model, "model.p.m1") : Ref) ∈
        childrenOfRef (loadManifest chainManifest none (fun s => s)).loader
          (Kind.model, "model.p.m0") ↔
      ((Kind.model, "model.p.m0") : Ref) ∈
        parentsOfRef (loadManifest chainManifest none (fun s => s)).loader
          (Kind.model, "model.p.m1")) ∧
    List.count ((Kind.model, "model.p.m1") : Ref)
        (childrenOfRef (loadManifest chainManifest none (fun s => s)).loader
          (Kind.model, "model.p.m0")) =
      List.count ((Kind.model, "model.p.m0") : Ref)
        (parentsOfRef (loadManifest chainManifest none (fun s => s)).loader
          (Kind.model, "model.p.m1")) :=
  c1_edge_symmetry chainManifest none (fun s => s)
    (Kind.model, "model.p.m0") (Kind.model, "model.p.m1")
    (by decide) (by decide)

/-- Claim C7: with a non-empty selection, pruning runs strictly after edge
resolution: each result collection is exactly the pre-filter collection
restricted to the entities whose name (selector name, for sources) is in the
selected set; the surviving entities are the very same records as before
pruning (edge lists untouched), and every reference in their edge lists
still resolves against the pre-filter state to a fully-populated entity —
even when that entity was pruned from the result collections. -/
theorem c7_filter_after_edges (m : RawManifest) (sel : List String)
    (f : List String → List String) (hsel : sel ≠ []) :
    ((loadManifest m (some sel) f).loader.models =
      (preFilterLoader m).models.filter (fun p =>
        (if sel.all isSimpleSelector then sel else f sel).contains
          p.2.name)) ∧
    ((loadManifest m (some sel) f).loader.sources =
      (preFilterLoader m).sources.filter (fun p =>
        (if sel.all isSimpleSelector then sel else f sel).contains
          p.2.selector_name)) ∧
    ((loadManifest m (some sel) f).loader.snapshots =
      (preFilterLoader m).snapshots.filter (fun p =>
        (if sel.all isSimpleSelector then sel else f sel).contains
          p.2.name)) ∧
    ((loadManifest m (some sel) f).loader.exposures =
      (preFilterLoader m).exposures.filter (fun p =>
        (if sel.all isSimpleSelector then sel else f sel).contains
          p.2.name)) ∧
    ((loadManifest m (some sel) f).loader.seeds =
      (preFilterLoader m).seeds.filter (fun p =>
        (if sel.all isSimpleSelector then sel else f sel).contains
          p.2.name)) ∧
    (∀ x E, (loadManifest m (some sel) f).loader.lookupEval x = some E →
      (preFilterLoader m).lookupEval x = some E) ∧
    (∀ x E r, (loadManifest m (some sel) f).loader.lookupEval x = some E →
      (r ∈ E.parentsRefs ∨ r ∈ E.childrenRefs) →
      ((preFilterLoader m).lookupEval r).isSome = true) := by
  have hempty : sel.isEmpty = false := by
    cases sel
    · exact absurd rfl hsel
    · rfl
  refine ⟨?_, ?_, ?_, ?_, ?_, ?_, ?_⟩
  · simp [loadManifest, filterEvaluables, hempty]
  · simp [loadManifest, filterEvaluables, hempty]
  · simp [loadManifest, filterEvaluables, hempty]
  · simp [loadManifest, filterEvaluables, hempty]
  · simp [loadManifest, filterEvaluables, hempty]
  · intro x E hx
    exact loadManifest_lookup_some m (some sel) f x E hx
  · intro x E r hx hr
    have hpre := loadManifest_lookup_some m (some sel) f x E hx
    have hok := (preFilter_inv m).2.1
    apply hok x r
    have hpx : parentsOfRef (preFilterLoader m) x = E.parentsRefs := by
      simp [parentsOfRef, hpre]
    have hcx : childrenOfRef (preFilterLoader m) x = E.childrenRefs := by
      simp [childrenOfRef, hpre]
    rw [hpx, hcx]
    exact hr

/-- Claim C7, witness: selecting `["m0"]` on the chain manifest leaves
exactly the pre-filter models whose name is `m0`. -/
theorem c7_filter_after_edges_witness :
    (loadManifest chainManifest (some ["m0"]) (fun s => s)).loader.models =
      (preFilterLoader chainManifest).models.filter (fun p =>
        (if ["m0"].all isSimpleSelector then ["m0"]
          else (fun s : List String => s) ["m0"]).contains p.2.name) :=
  (c7_filter_after_edges chainManifest ["m0"] (fun s => s) (by decide)).1
